import Mathlib

/-!
Vroomy service: plugin names, group and route composition, listeners, shutdown

A shallow embedding of `service.go`.  Go strings are modelled as lists of
characters; every separator the service splits on is ASCII, so splitting on
characters and splitting on bytes agree.
-/

set_option autoImplicit false

namespace Vroomy

/-- Go `string`. -/
abbrev Str := List Char

/-! ## The pieces of Go's `unicode`, `strings` and `path` packages the service calls -/

namespace unicode

/-- `unicode.ToLower(r)`.  A rune up to `MaxASCII` is moved by `'a' - 'A'` when
it lies between `'A'` and `'Z'` and kept otherwise.  Beyond ASCII the result
comes from Go's case table: its two entries that lead into ASCII, U+0130 to
`i` and U+212A to `k`, are written out, the rest of the table is `table`. -/
def ToLower (table : Char → Char) (r : Char) : Char :=
  if r.toNat ≤ 127 then
    if 65 ≤ r.toNat ∧ r.toNat ≤ 90 then Char.ofNat (r.toNat + 32) else r
  else if r.toNat = 0x130 then 'i'
  else if r.toNat = 0x212A then 'k'
  else table r

end unicode

namespace strings

/-- `strings.HasPrefix(s, p)`. -/
def HasPrefix (s p : Str) : Bool := p.isPrefixOf s

/-- `strings.Index(s, sep)`: position of the first instance of `sep` in `s`,
`none` for Go's `-1`. -/
def Index : Str → Str → Option Nat
  | [], sep => if sep.isEmpty then some 0 else none
  | c :: cs, sep =>
    if HasPrefix (c :: cs) sep then some 0 else (Index cs sep).map (· + 1)

/-- `strings.Contains(s, substr)` is `Index(s, substr) >= 0`. -/
def Contains (s substr : Str) : Bool := (Index s substr).isSome

/-- The loop of `strings.genSplit` for a non-empty separator: cut at the first
instance of `sep`, continue after it.  Go bounds the loop by the number of
instances, which never exceeds `len(s)`; the bound is the first argument. -/
def genSplit (sep : Str) : Nat → Str → List Str
  | 0, s => [s]
  | n + 1, s =>
    match Index s sep with
    | none => [s]
    | some m => s.take m :: genSplit sep n (s.drop (m + sep.length))

/-- `strings.explode`: one string per character. -/
def explode (s : Str) : List Str := s.map fun c => [c]

/-- `strings.Split(s, sep)`. -/
def Split (s sep : Str) : List Str :=
  if sep.isEmpty then explode s else genSplit sep s.length s

/-- `strings.LastIndexByte(s, c)`, `none` for Go's `-1`. -/
def LastIndexByte : Str → Char → Option Nat
  | [], _ => none
  | x :: xs, c =>
    match LastIndexByte xs c with
    | some i => some (i + 1)
    | none => if x = c then some 0 else none

/-- `strings.ToLower(s)`: every rune replaced by its lower-case form, `lower`
being the rune map `unicode.ToLower`. -/
def ToLower (lower : Char → Char) (s : Str) : Str := s.map lower

end strings

namespace path

/-- `path.Split(p)`: the directory, up to and including the final slash, and
the file after it. -/
def Split (p : Str) : Str × Str :=
  match strings.LastIndexByte p '/' with
  | none => ([], p)
  | some i => (p.take (i + 1), p.drop (i + 1))

end path

/-- `pluginName(key)`. -/
def pluginName (key : Str) : Str :=
  let comps := strings.Split key " as ".toList
  if comps.length > 1 then
    comps.getD 1 []
  else
    let key := (strings.Split key "#".toList).headD []
    let key := (strings.Split key "@".toList).headD []
    (path.Split key).2

/-- `seg` is the final path segment of `p`: the text after the last slash of
`p`, all of `p` when it has none. -/
def IsFinalSegment (p seg : Str) : Prop :=
  '/' ∉ seg ∧ ∃ dir, p = dir ++ seg ∧ (dir = [] ∨ dir.getLast? = some '/')

/-- A plugin reference `locator[@version][#variant][ as alias]`, written out
from its parts. -/
def pluginRef (locator : Str) (version variant aliasName : Option Str) : Str :=
  locator
    ++ (match version with
        | some v => '@' :: v
        | none => [])
    ++ (match variant with
        | some v => '#' :: v
        | none => [])
    ++ (match aliasName with
        | some a => " as ".toList ++ a
        | none => [])

/-- The rune `c` is the lower-case ASCII letter `y`, letter case ignored: `y`
itself, its ASCII capital, or one of the two runes beyond ASCII that Go
lower-cases into ASCII, U+0130 for `i` and U+212A for `k`. -/
def sameLetter (c y : Char) : Prop :=
  c = y ∨ c.toNat + 32 = y.toNat ∨ (c.toNat = 0x130 ∧ y = 'i') ∨ (c.toNat = 0x212A ∧ y = 'k')

/-- The string `m` is the lower-case ASCII word `t`, letter case ignored:
rune for rune the same letter. -/
def equalIgnoringCase (m t : Str) : Prop := List.Forall₂ sameLetter m t

/-! ## Errors and outcomes -/

/-- Go `error` values the service produces or hands on. -/
inductive Error
  /-- `ErrInvalidTLSDirectory`. -/
  | ErrInvalidTLSDirectory
  /-- `ErrInvalidInitializationFunc`. -/
  | ErrInvalidInitializationFunc
  /-- `errors.ErrIsClosed`. -/
  | ErrIsClosed
  /-- A handler reference the registry does not resolve. -/
  | unresolved (ref : Str)
  /-- A group name the configuration does not declare. -/
  | groupNotFound (name : Str)
  /-- An error value returned by a collaborator (listener, registry, panic log). -/
  | external (msg : Str)
  /-- `fmt.Errorf("error initializing route #%d (%v): %v", i, r, err)`; the
  formatted route is left out, the position `i` and the cause are kept. -/
  | routeInit (i : Nat) (cause : Error)
  /-- An `errors.ErrorList` holding one error. -/
  | errorList1 (first : Error)
  /-- An `errors.ErrorList` holding two errors. -/
  | errorList2 (first second : Error)
  deriving DecidableEq

/-- How a call of a composition function ends: it returns `nil`, it returns an
error, or it panics (a method call on a nil `httpserve.Group`). -/
inductive Outcome
  | ok
  | err (e : Error)
  | panic
  deriving DecidableEq

/-! ## The router, as far as the service drives it -/

/-- `httpserve.Handler`: a resolved handler, known by its identity. -/
abbrev Handler := Nat

/-- A non-nil `httpserve.Group` value: the server itself (the root scope) or a
sub-scope created by `Group`, known by its position among the created ones. -/
inductive Scope
  | srv
  | group (id : Nat)
  deriving DecidableEq

/-- The five registrations of a scope. -/
inductive Method
  | GET
  | PUT
  | POST
  | DELETE
  | OPTIONS
  deriving DecidableEq

namespace httpserve

/-- A sub-scope created by `grp.Group(path, handlers...)`. -/
structure GroupNode where
  parent : Scope
  path : Str
  handlers : List Handler
  deriving DecidableEq

/-- A registration made by `grp.GET(path, handlers...)` and its siblings. -/
structure Registration where
  scope : Scope
  method : Method
  path : Str
  handlers : List Handler
  deriving DecidableEq

/-- `httpserve.Serve`: the sub-scopes created, the registrations made, and
whether `SetPanic` has been called. -/
structure Serve where
  groups : List GroupNode
  routes : List Registration
  panicSet : Bool
  deriving DecidableEq

/-- `httpserve.New()`. -/
def New : Serve := ⟨[], [], false⟩

/-- `srv.SetPanic(fn)`. -/
def Serve.SetPanic (srv : Serve) : Serve := { srv with panicSet := true }

/-- `grp.Group(path, handlers...)`: a new sub-scope of `grp`. -/
def Serve.Group (srv : Serve) (grp : Scope) (route : Str) (handlers : List Handler) :
    Serve × Scope :=
  ({ srv with groups := srv.groups ++ [⟨grp, route, handlers⟩] }, Scope.group srv.groups.length)

/-- `grp.GET(path, handlers...)` and its siblings, `m` naming which. -/
def Serve.Handle (srv : Serve) (grp : Scope) (m : Method) (route : Str)
    (handlers : List Handler) : Serve :=
  { srv with routes := srv.routes ++ [⟨grp, m, route, handlers⟩] }

end httpserve

/-! ## The plugin registry and the panic log -/

namespace plugins

/-- `plugins.Plugins`: what each handler reference resolves to, the value its
`Close` returns, and how often `Close` has been called. -/
structure Plugins where
  handler : Str → Option Handler
  closeErr : Option Error
  closeCalls : Nat

/-- `p.Close()`. -/
def Plugins.Close (p : Plugins) : Plugins × Option Error :=
  ({ p with closeCalls := p.closeCalls + 1 }, p.closeErr)

end plugins

/-- The panic log: the value its `Close` returns and how often `Close` has
been called. -/
structure panicLog where
  closeErr : Option Error
  closeCalls : Nat
  deriving DecidableEq

/-- `plog.Close()`. -/
def panicLog.Close (p : panicLog) : panicLog × Option Error :=
  ({ p with closeCalls := p.closeCalls + 1 }, p.closeErr)

/-! ## The configuration -/

namespace config

set_option linter.dupNamespace false in
/-- `config.Group`.  `G` is `none` while the router-tree node is not created. -/
structure Group where
  Name : Str
  Group : Str
  HTTPPath : Str
  Handlers : List Str
  HttpHandlers : List Handler
  G : Option Scope
  deriving DecidableEq

/-- `config.Route`. -/
structure Route where
  Group : Str
  Method : Str
  HTTPPath : Str
  Handlers : List Str
  HttpHandlers : List Handler
  deriving DecidableEq

/-- `config.Config`, the fields the service reads.  `Groups` and `Routes` hold
pointers in Go; a pointer is a position in the list here. -/
structure Config where
  Port : Nat
  TLSPort : Nat
  TLSDir : Str
  Flags : Str → Option Str
  Groups : List config.Group
  Routes : List config.Route

/-- Resolution of a chain of handler references against the registry, in
order, stopping at the first that does not resolve. -/
def resolveHandlers (p : plugins.Plugins) : List Str → Except Error (List Handler)
  | [] => .ok []
  | key :: rest =>
    match p.handler key with
    | none => .error (Error.unresolved key)
    | some h =>
      match resolveHandlers p rest with
      | .ok hs => .ok (h :: hs)
      | .error e => .error e

/-- `group.Init(plugins)`: the group with its handler chain resolved. -/
def Group.Init (g : config.Group) (p : plugins.Plugins) : Except Error config.Group :=
  match resolveHandlers p g.Handlers with
  | .ok hs => .ok { g with HttpHandlers := hs }
  | .error e => .error e

/-- `route.Init(plugins)`: the route with its handler chain resolved. -/
def Route.Init (r : config.Route) (p : plugins.Plugins) : Except Error config.Route :=
  match resolveHandlers p r.Handlers with
  | .ok hs => .ok { r with HttpHandlers := hs }
  | .error e => .error e

/-- Position of the first group called `name`. -/
def findGroup (name : Str) : List config.Group → Option Nat
  | [] => none
  | g :: gs => if g.Name = name then some 0 else (findGroup name gs).map (· + 1)

/-- `cfg.GetGroup(name)`: no group and no error for the empty name, the first
group of that name otherwise, an error when there is none. -/
def Config.GetGroup (c : Config) (name : Str) : Except Error (Option Nat) :=
  if name.length = 0 then .ok none
  else
    match findGroup name c.Groups with
    | some i => .ok (some i)
    | none => .error (Error.groupNotFound name)

end config

/-! ## The service -/

/-- `atoms.Bool.Set(state)`, a compare-and-swap from `!state` to `state`: the
flag afterwards and whether the call changed it. -/
def atoms.Bool.Set (b state : Bool) : Bool × Bool := (state, b != state)

/-- `Service`. -/
structure Service where
  cfg : config.Config
  srv : httpserve.Serve
  Plugins : plugins.Plugins
  plog : panicLog
  closed : Bool

namespace Service

/-- Assignment through the group pointer `gi`. -/
def setGroup (s : Service) (gi : Nat) (g : config.Group) : Service :=
  { s with cfg := { s.cfg with Groups := s.cfg.Groups.set gi g } }

/-- Assignment through the route pointer `i`. -/
def setRoute (s : Service) (i : Nat) (r : config.Route) : Service :=
  { s with cfg := { s.cfg with Routes := s.cfg.Routes.set i r } }

/-- The node held by the group at `gi`, `none` for a nil `G`. -/
def groupNode (s : Service) (gi : Nat) : Option Scope :=
  match s.cfg.Groups[gi]? with
  | some g => g.G
  | none => none

/-- `s.initGroup(group)`, `gi` the group pointed to. -/
def initGroup (s : Service) (gi : Nat) : Service × Outcome :=
  match s.cfg.Groups[gi]? with
  | none => (s, Outcome.panic)
  | some group =>
    match group.Init s.Plugins with
    | .error e => (s, Outcome.err e)
    | .ok group =>
      let s := s.setGroup gi group
      match s.cfg.GetGroup group.Group with
      | .error e => (s, Outcome.err e)
      | .ok m =>
        -- grp starts as s.srv and becomes match.G when a group matched
        let grp : Option Scope :=
          match m with
          | none => some Scope.srv
          | some mi => s.groupNode mi
        match grp with
        | none => (s, Outcome.panic)
        | some grp =>
          let res := s.srv.Group grp group.HTTPPath group.HttpHandlers
          (({ s with srv := res.1 }).setGroup gi { group with G := some res.2 }, Outcome.ok)

/-- The inner loop of `initGroups`: `hasPlugin` after the handlers are walked. -/
def groupHasPlugin (filter : Str) : List Str → Bool
  | [] => false
  | handler :: rest =>
    if strings.Contains filter ((strings.Split handler ".".toList).headD []) then true
    else groupHasPlugin filter rest

/-- Whether the loop of `initGroups` takes `continue` for a group with these
handlers; `require` is the looked-up flag, `none` when `ok` is false. -/
def groupSkipped (require : Option Str) (handlers : List Str) : Bool :=
  match require with
  | none => false
  | some filter => !groupHasPlugin filter handlers

/-- The loop of `initGroups` over the group pointers `gis`.  The error
`initGroup` returns is dropped, a panic ends the call. -/
def initGroupsLoop (require : Option Str) : List Nat → Service → Service × Outcome
  | [], s => (s, Outcome.ok)
  | gi :: rest, s =>
    match s.cfg.Groups[gi]? with
    | none => (s, Outcome.panic)
    | some group =>
      if groupSkipped require group.Handlers then initGroupsLoop require rest s
      else
        match s.initGroup gi with
        | (s, Outcome.panic) => (s, Outcome.panic)
        | (s, _) => initGroupsLoop require rest s

/-- `s.initGroups()`. -/
def initGroups (s : Service) : Service × Outcome :=
  if s.cfg.Groups.length = 0 then (s, Outcome.ok)
  else initGroupsLoop (s.cfg.Flags "require".toList) (List.range s.cfg.Groups.length) s

/-- The group pointers on which the loop of `initGroups` calls `initGroup`, in
the order of the calls: the same loop as `initGroupsLoop`, keeping the calls
made instead of the service reached. -/
def initGroupsCalls (require : Option Str) : List Nat → Service → List Nat
  | [], _ => []
  | gi :: rest, s =>
    match s.cfg.Groups[gi]? with
    | none => []
    | some group =>
      if groupSkipped require group.Handlers then initGroupsCalls require rest s
      else
        match s.initGroup gi with
        | (_, Outcome.panic) => [gi]
        | (s, _) => gi :: initGroupsCalls require rest s

/-- The group pointers on which a call of `initGroups` calls `initGroup`. -/
def initGroupCalls (s : Service) : List Nat :=
  if s.cfg.Groups.length = 0 then []
  else initGroupsCalls (s.cfg.Flags "require".toList) (List.range s.cfg.Groups.length) s

/-- The inner loop of `initRoutes`: `hasPlugin` after the handlers are walked. -/
def routeHasPlugin (filter : Str) : List Str → Bool
  | [] => true
  | handler :: rest =>
    if !strings.Contains filter ((strings.Split handler ".".toList).headD []) then false
    else routeHasPlugin filter rest

/-- Whether the loop of `initRoutes` takes `continue` for a route with these
handlers. -/
def routeSkipped (require : Option Str) (handlers : List Str) : Bool :=
  match require with
  | none => false
  | some filter => !routeHasPlugin filter handlers

/-- The `switch` of `initRoutes` on the lower-cased method. -/
def methodOf (lower : Char → Char) (method : Str) : Method :=
  let m := strings.ToLower lower method
  if m = "put".toList then Method.PUT
  else if m = "post".toList then Method.POST
  else if m = "delete".toList then Method.DELETE
  else if m = "options".toList then Method.OPTIONS
  else Method.GET

/-- The body of the loop of `initRoutes` for the route `r` at position `i`. -/
def initRoute (lower : Char → Char) (require : Option Str) (s : Service) (i : Nat)
    (r : config.Route) : Service × Outcome :=
  if routeSkipped require r.Handlers then (s, Outcome.ok)
  else
    match r.Init s.Plugins with
    | .error e => (s, Outcome.err (Error.routeInit i e))
    | .ok r =>
      let s := s.setRoute i r
      match s.cfg.GetGroup r.Group with
      | .error e => (s, Outcome.err e)
      | .ok none =>
        ({ s with srv := s.srv.Handle Scope.srv (methodOf lower r.Method) r.HTTPPath
                    r.HttpHandlers }, Outcome.ok)
      | .ok (some mi) =>
        let res := if s.groupNode mi = none then s.initGroup mi else (s, Outcome.ok)
        match res with
        | (s, Outcome.panic) => (s, Outcome.panic)
        | (s, _) =>
          match s.groupNode mi with
          | none => (s, Outcome.panic)
          | some grp =>
            ({ s with srv := s.srv.Handle grp (methodOf lower r.Method) r.HTTPPath
                        r.HttpHandlers }, Outcome.ok)

/-- The loop of `initRoutes` from position `i` over the routes `rs`. -/
def initRoutesLoop (lower : Char → Char) (require : Option Str) :
    Nat → List config.Route → Service → Service × Outcome
  | _, [], s => (s, Outcome.ok)
  | i, r :: rs, s =>
    match initRoute lower require s i r with
    | (s, Outcome.ok) => initRoutesLoop lower require (i + 1) rs s
    | res => res

/-- `s.initRoutes()`. -/
def initRoutes (lower : Char → Char) (s : Service) : Service × Outcome :=
  initRoutesLoop lower (s.cfg.Flags "require".toList) 0 s.cfg.Routes
    { s with srv := s.srv.SetPanic }

/-! ### Listening -/

/-- The `listener` that `getHTTPListener` returns: an upgrader pointing at the
TLS port, or the server itself. -/
inductive listener
  | upgrader (tlsPort : Nat)
  | serve
  deriving DecidableEq

/-- What the serving calls of the router do when made: `none` when the call
serves for ever, `some e` when it returns the error value `e` (`none` for nil). -/
structure Network where
  Listen : listener → Nat → Option (Option Error)
  ListenTLS : Nat → Str → Option (Option Error)

/-- `s.getHTTPListener()`. -/
def getHTTPListener (s : Service) : listener :=
  if s.cfg.TLSPort > 0 then listener.upgrader s.cfg.TLSPort else listener.serve

/-- `s.listenHTTP(errC)`: the values the call sends down `errC`. -/
def listenHTTP (net : Network) (s : Service) : List (Option Error) :=
  if s.cfg.Port = 0 then []
  else
    match net.Listen s.getHTTPListener s.cfg.Port with
    | none => []
    | some e => [e]

/-- What a call of `listenHTTPS` does: the values it sends down `errC` and the
`ListenTLS` calls it makes, as port and directory. -/
structure HTTPSAttempt where
  sent : List (Option Error)
  served : List (Nat × Str)
  deriving DecidableEq

/-- `s.listenHTTPS(errC)`. -/
def listenHTTPS (net : Network) (s : Service) : HTTPSAttempt :=
  if s.cfg.TLSPort = 0 then ⟨[], []⟩
  else if s.cfg.TLSDir.length = 0 then ⟨[some Error.ErrInvalidTLSDirectory], []⟩
  else
    match net.ListenTLS s.cfg.TLSPort s.cfg.TLSDir with
    | none => ⟨[], [(s.cfg.TLSPort, s.cfg.TLSDir)]⟩
    | some e => ⟨[e], [(s.cfg.TLSPort, s.cfg.TLSDir)]⟩

/-- The values that arrive on `errC`, in order, when the two goroutines of
`Listen` are scheduled so that the HTTP one sends first (`httpFirst`) or the
HTTPS one does.  Each sends once at most and the channel holds two values. -/
def delivered (net : Network) (httpFirst : Bool) (s : Service) : List (Option Error) :=
  if httpFirst then s.listenHTTP net ++ (s.listenHTTPS net).sent
  else (s.listenHTTPS net).sent ++ s.listenHTTP net

/-- `s.Listen()`: the first value delivered on `errC`; `none` when none ever is
and the call blocks for ever. -/
def Listen (net : Network) (httpFirst : Bool) (s : Service) : Option (Option Error) :=
  (s.delivered net httpFirst).head?

/-! ### Closing -/

/-- `errs.Push(err)`: a nil error is not kept. -/
def ErrorList.Push (errs : List Error) (err : Option Error) : List Error :=
  match err with
  | none => errs
  | some e => errs ++ [e]

/-- `errs.Err()`: nil for the empty list, the list as an error otherwise.
`Close` pushes twice, so two entries are the most there are. -/
def ErrorList.Err : List Error → Option Error
  | [] => none
  | [e] => some (Error.errorList1 e)
  | e1 :: e2 :: _ => some (Error.errorList2 e1 e2)

/-- `s.Close()`. -/
def Close (s : Service) : Service × Option Error :=
  let set := atoms.Bool.Set s.closed true
  let s := { s with closed := set.1 }
  if !set.2 then (s, some Error.ErrIsClosed)
  else
    let errs : List Error := []
    let pc := s.Plugins.Close
    let errs := ErrorList.Push errs pc.2
    let lc := s.plog.Close
    let errs := ErrorList.Push errs lc.2
    ({ s with Plugins := pc.1, plog := lc.1 }, ErrorList.Err errs)

/-- `n` calls of `Close`, one after the other: the service afterwards and
what each call returned, in order. -/
def closeTimes : Nat → Service → Service × List (Option Error)
  | 0, s => (s, [])
  | n + 1, s =>
    let first := s.Close
    let rest := closeTimes n first.1
    (rest.1, first.2 :: rest.2)

end Service

/-! ## Small configurations to run the service on -/

namespace Sample

/-- The rune map `unicode.ToLower`, the rest of the case table left as it is:
no rune of that rest lower-cases into ASCII, so none can turn a method into
one of the four the service matches on. -/
def lower : Char → Char := unicode.ToLower fun r => r

/-- A registry in which the plugins `A` and `B` each export a handler `h`. -/
def registry : plugins.Plugins :=
  ⟨fun ref =>
      if ref = "A.h".toList then some 1
      else if ref = "B.h".toList then some 2
      else none,
    none, 0⟩

/-- No flag is set. -/
def noFlags : Str → Option Str := fun _ => none

/-- The flag `require` is set to `A`. -/
def requireA : Str → Option Str :=
  fun key => if key = "require".toList then some "A".toList else none

/-- A declared group, its node not yet created. -/
def group (name parent route : String) (handlers : List String) : config.Group :=
  ⟨name.toList, parent.toList, route.toList, handlers.map String.toList, [], none⟩

/-- A declared route. -/
def route (parent method route : String) (handlers : List String) : config.Route :=
  ⟨parent.toList, method.toList, route.toList, handlers.map String.toList, []⟩

/-- A service as `New` has it before composition: fresh router, the sample
registry, not closed. -/
def service (httpPort tlsPort : Nat) (tlsDir : String) (flags : Str → Option Str)
    (groups : List config.Group) (routes : List config.Route) : Service :=
  ⟨⟨httpPort, tlsPort, tlsDir.toList, flags, groups, routes⟩, httpserve.New, registry,
    ⟨none, 0⟩, false⟩

/-- One group, whose handler `missing.h` no plugin exports. -/
def brokenGroup : Service :=
  service 0 0 "" noFlags [group "g" "" "/g" ["missing.h"]] []

/-- A child group declared before the parent it names. -/
def childFirst : Service :=
  service 0 0 "" noFlags [group "child" "parent" "/c" ["A.h"], group "parent" "" "/p" []] []

/-- The same two groups, the parent declared first. -/
def parentFirst : Service :=
  service 0 0 "" noFlags [group "parent" "" "/p" [], group "child" "parent" "/c" ["A.h"]] []

/-- A route whose handler does not resolve, followed by one that is in order. -/
def badThenGood : Service :=
  service 0 0 "" noFlags []
    [route "" "GET" "/bad" ["missing.h"], route "" "POST" "/good" ["A.h"]]

/-- A route that is in order, followed by one whose handler does not resolve. -/
def goodThenBad : Service :=
  service 0 0 "" noFlags []
    [route "" "POST" "/good" ["A.h"], route "" "GET" "/bad" ["missing.h"]]

/-- A route naming a group that is not declared, followed by a route whose
handler does not resolve. -/
def lostGroupThenBad : Service :=
  service 0 0 "" noFlags []
    [route "nowhere" "GET" "/first" ["A.h"], route "" "GET" "/bad" ["missing.h"]]

/-- A route in the group `g`, whose own handler does not resolve, followed by
a route whose handler does not resolve. -/
def nilGroupThenBad : Service :=
  service 0 0 "" noFlags [group "g" "" "/g" ["missing.h"]]
    [route "g" "GET" "/first" ["A.h"], route "" "GET" "/bad" ["missing.h"]]

/-- The flag `require` set to `A`; a group and a route with the handlers
`A.h` and `B.h`, a group with `B.h` alone, a route with `A.h` alone. -/
def filtered : Service :=
  service 0 0 "" requireA
    [group "ab" "" "/ab" ["A.h", "B.h"], group "b" "" "/b" ["B.h"]]
    [route "" "GET" "/ab" ["A.h", "B.h"], route "" "GET" "/a" ["A.h"]]

/-- A group `g` and a route in it, no node created yet. -/
def inGroup : Service :=
  service 0 0 "" noFlags [group "g" "" "/g" ["A.h"]] [route "g" "pUt" "/x" ["B.h"]]

/-- HTTP off, HTTPS on port 8443, no TLS directory. -/
def tlsWithoutDir : Service := service 0 8443 "" noFlags [] []

/-- Serving calls that never return. -/
def servesForever : Service.Network := ⟨fun _ _ => none, fun _ _ => none⟩

end Sample

/-! ## Facts about the string primitives -/

namespace strings

theorem HasPrefix_iff (s p : Str) : HasPrefix s p = true ↔ p <+: s := by
  unfold HasPrefix
  exact List.isPrefixOf_iff_prefix

theorem Index_eq_none_iff (s sep : Str) : Index s sep = none ↔ ¬ sep <:+: s := by
  induction s with
  | nil =>
    cases sep with
    | nil => simp [Index]
    | cons a t => simp [Index]
  | cons c cs ih =>
    unfold Index
    by_cases h : HasPrefix (c :: cs) sep = true
    · have hp := (HasPrefix_iff _ _).1 h
      simp only [h, if_true]
      constructor
      · intro h0; cases h0
      · intro h0; exact absurd hp.isInfix h0
    · have hp : ¬ sep <+: c :: cs := fun hh => h ((HasPrefix_iff _ _).2 hh)
      have hf : HasPrefix (c :: cs) sep = false := by simpa using h
      rw [hf, List.infix_cons_iff]
      simp only [Bool.false_eq_true, if_false, Option.map_eq_none', ih]
      tauto

theorem Contains_iff (s substr : Str) : Contains s substr = true ↔ substr <:+: s := by
  unfold Contains
  rw [← not_iff_not, ← Index_eq_none_iff]
  cases Index s substr <;> simp

theorem Contains_eq_false_iff (s substr : Str) :
    Contains s substr = false ↔ ¬ substr <:+: s := by
  rw [← Contains_iff]; simp

theorem Index_single_take (c : Char) (s : Str) :
    (match Index s [c] with
      | none => s
      | some m => s.take m) = s.takeWhile (· != c) := by
  induction s with
  | nil => simp [Index]
  | cons x xs ih =>
    unfold Index
    by_cases hx : x = c
    · subst hx
      simp [HasPrefix, List.isPrefixOf]
    · have hx2 : (c == x) = false := by simpa using fun h => hx h.symm
      have hx3 : (x != c) = true := by simpa using hx
      simp only [HasPrefix, List.isPrefixOf, hx2, Bool.false_and, Bool.false_eq_true, if_false,
        List.takeWhile_cons, hx3, if_true]
      rw [← ih]
      cases Index xs [c] <;> simp

theorem genSplit_of_absent (sep s : Str) (n : Nat) (h : ¬ sep <:+: s) :
    genSplit sep n s = [s] := by
  cases n with
  | zero => rfl
  | succ n => simp [genSplit, (Index_eq_none_iff s sep).2 h]

theorem Split_of_absent (sep s : Str) (hsep : sep ≠ []) (h : ¬ sep <:+: s) :
    Split s sep = [s] := by
  unfold Split
  have : sep.isEmpty = false := by cases sep <;> simp_all
  simp [this, genSplit_of_absent sep s _ h]

theorem Split_single_headD (c : Char) (s : Str) :
    (Split s [c]).headD [] = s.takeWhile (· != c) := by
  unfold Split
  cases s with
  | nil => simp [genSplit]
  | cons x xs =>
    rw [← Index_single_take]
    simp only [List.isEmpty_cons, Bool.false_eq_true, if_false, List.length_cons, genSplit]
    cases Index (x :: xs) [c] <;> simp

theorem prefix_of_prefix_append_cons {L A Y : Str} {c : Char} (hc : c ∉ L)
    (h : L <+: A ++ c :: Y) : L <+: A := by
  induction A generalizing L with
  | nil =>
    rcases List.prefix_cons_iff.1 h with h0 | ⟨t, ht, _⟩
    · subst h0; exact List.nil_prefix
    · subst ht; simp at hc
  | cons a A ih =>
    rcases List.prefix_cons_iff.1 h with h0 | ⟨t, ht, htp⟩
    · subst h0; exact List.nil_prefix
    · subst ht
      have hct : c ∉ t := fun hh => hc (List.mem_cons_of_mem _ hh)
      exact (List.prefix_cons_inj a).2 (ih hct htp)

theorem infix_of_infix_append_cons {L X Y : Str} {c : Char} (hc : c ∉ L)
    (h : L <:+: X ++ c :: Y) : L <:+: X ∨ L <:+: Y := by
  induction X with
  | nil =>
    rcases List.infix_cons_iff.1 h with h0 | h0
    · exact Or.inl (prefix_of_prefix_append_cons (A := []) hc h0).isInfix
    · exact Or.inr h0
  | cons x X ih =>
    rcases List.infix_cons_iff.1 h with h0 | h0
    · exact Or.inl (prefix_of_prefix_append_cons (A := x :: X) hc h0).isInfix
    · rcases ih h0 with h1 | h1
      · exact Or.inl (List.infix_cons_iff.2 (Or.inr h1))
      · exact Or.inr h1

theorem asSep_eq : " as ".toList = [' ', 'a', 's', ' '] := rfl

theorem asEnd_eq : " as".toList = [' ', 'a', 's'] := rfl

/-- The first instance of `" as "` in `P ++ " as " ++ A` is the one written
there, provided `P` holds none and does not end in `" as"`. -/
theorem Index_as_append (P A : Str) (h1 : ¬ " as ".toList <:+: P)
    (h2 : ¬ " as".toList <:+ P) :
    Index (P ++ " as ".toList ++ A) " as ".toList = some P.length := by
  rw [asSep_eq] at h1 ⊢
  rw [asEnd_eq] at h2
  induction P with
  | nil => simp [Index, HasPrefix, List.isPrefixOf]
  | cons c P ih =>
    have h1t : ¬ [' ', 'a', 's', ' '] <:+: P := fun h => h1 (List.infix_cons_iff.2 (Or.inr h))
    have h2t : ¬ [' ', 'a', 's'] <:+ P := fun h => h2 (List.suffix_cons_iff.2 (Or.inr h))
    have hno : HasPrefix (c :: P ++ [' ', 'a', 's', ' '] ++ A) [' ', 'a', 's', ' '] = false := by
      rw [← Bool.not_eq_true]
      intro hp
      match P, h1, h2 with
      | [], _, _ => simp [HasPrefix, List.isPrefixOf] at hp
      | [p1], _, _ => simp [HasPrefix, List.isPrefixOf] at hp
      | [p1, p2], _, h2 =>
        simp [HasPrefix, List.isPrefixOf] at hp
        obtain ⟨rfl, rfl, rfl⟩ := hp
        exact h2 (List.suffix_refl _)
      | p1 :: p2 :: p3 :: rest, h1, _ =>
        simp [HasPrefix, List.isPrefixOf] at hp
        obtain ⟨rfl, rfl, rfl, rfl⟩ := hp
        exact h1 ⟨[], rest, by simp⟩
    have ih2 := ih h1t h2t
    simp only [List.cons_append] at hno ih2 ⊢
    unfold Index
    simp only [List.append_assoc] at hno ih2 ⊢
    rw [hno, ih2]
    simp

theorem genSplit_cut (sep s : Str) (n m : Nat) (hI : Index s sep = some m)
    (hrest : ¬ sep <:+: s.drop (m + sep.length)) :
    genSplit sep (n + 1) s = [s.take m, s.drop (m + sep.length)] := by
  simp only [genSplit, hI]
  rw [genSplit_of_absent _ _ _ hrest]

theorem Split_as_append (P A : Str) (h1 : ¬ " as ".toList <:+: P)
    (h2 : ¬ " as".toList <:+ P) (h3 : ¬ " as ".toList <:+: A) :
    Split (P ++ " as ".toList ++ A) " as ".toList = [P, A] := by
  have hI := Index_as_append P A h1 h2
  obtain ⟨n, hlen⟩ : ∃ n, (P ++ " as ".toList ++ A).length = n + 1 :=
    ⟨P.length + A.length + 3, by simp [asSep_eq]; omega⟩
  have hd : List.drop (P.length + (" as ".toList).length) (P ++ " as ".toList ++ A) = A := by
    have : P.length + (" as ".toList).length = (P ++ " as ".toList).length := by simp
    rw [this, List.drop_left]
  have ht : List.take P.length (P ++ " as ".toList ++ A) = P := by
    rw [List.append_assoc, List.take_left]
  have he : (" as ".toList).isEmpty = false := rfl
  unfold Split
  rw [hlen, he]
  simp only [Bool.false_eq_true, if_false]
  rw [genSplit_cut _ _ n _ hI (by rw [hd]; exact h3), hd, ht]

theorem LastIndexByte_none (s : Str) (c : Char) (h : LastIndexByte s c = none) : c ∉ s := by
  induction s with
  | nil => simp
  | cons x xs ih =>
    unfold LastIndexByte at h
    cases hx : LastIndexByte xs c with
    | some i => simp [hx] at h
    | none =>
      simp only [hx] at h
      by_cases hxc : x = c
      · simp [hxc] at h
      · simp only [List.mem_cons, not_or]
        exact ⟨fun hh => hxc hh.symm, ih hx⟩

theorem LastIndexByte_some (s : Str) (c : Char) (i : Nat) (h : LastIndexByte s c = some i) :
    s.take (i + 1) = s.take i ++ [c] ∧ c ∉ s.drop (i + 1) := by
  induction s generalizing i with
  | nil => simp [LastIndexByte] at h
  | cons x xs ih =>
    unfold LastIndexByte at h
    cases hx : LastIndexByte xs c with
    | some j =>
      simp only [hx, Option.some.injEq] at h
      subst h
      have := ih j hx
      simp [this.1, this.2]
    | none =>
      simp only [hx] at h
      by_cases hxc : x = c
      · simp only [hxc, if_true, Option.some.injEq] at h
        subst h
        simpa [hxc] using LastIndexByte_none xs c hx
      · simp [hxc] at h

end strings

theorem path.Split_snd_final (p : Str) : IsFinalSegment p (path.Split p).2 := by
  unfold path.Split
  cases h : strings.LastIndexByte p '/' with
  | none => exact ⟨strings.LastIndexByte_none p _ h, [], rfl, Or.inl rfl⟩
  | some i =>
    obtain ⟨h1, h2⟩ := strings.LastIndexByte_some p _ i h
    refine ⟨h2, p.take (i + 1), (List.take_append_drop _ _).symm, Or.inr ?_⟩
    rw [h1]; simp

theorem pluginRef_alias (locator : Str) (version variant : Option Str) (a : Str) :
    pluginRef locator version variant (some a)
      = pluginRef locator version variant none ++ " as ".toList ++ a := by
  simp [pluginRef]

theorem pluginRef_no_as (locator : Str) (version variant : Option Str)
    (hloc : ¬ " as ".toList <:+: locator)
    (hver : ∀ v, version = some v → ¬ " as ".toList <:+: v)
    (hvar : ∀ v, variant = some v → ¬ " as ".toList <:+: v) :
    ¬ " as ".toList <:+: pluginRef locator version variant none := by
  have hat : '@' ∉ " as ".toList := by decide
  have hhash : '#' ∉ " as ".toList := by decide
  intro h
  cases version with
  | none =>
    cases variant with
    | none => exact hloc (by simpa [pluginRef] using h)
    | some w =>
      have h2 : " as ".toList <:+: locator ++ '#' :: w := by simpa [pluginRef] using h
      rcases strings.infix_of_infix_append_cons hhash h2 with h3 | h3
      · exact hloc h3
      · exact hvar w rfl h3
  | some v =>
    cases variant with
    | none =>
      have h2 : " as ".toList <:+: locator ++ '@' :: v := by simpa [pluginRef] using h
      rcases strings.infix_of_infix_append_cons hat h2 with h3 | h3
      · exact hloc h3
      · exact hver v rfl h3
    | some w =>
      have h2 : " as ".toList <:+: (locator ++ '@' :: v) ++ '#' :: w := by
        simpa [pluginRef] using h
      rcases strings.infix_of_infix_append_cons hhash h2 with h3 | h3
      · rcases strings.infix_of_infix_append_cons hat h3 with h4 | h4
        · exact hloc h4
        · exact hver v rfl h4
      · exact hvar w rfl h3

theorem takeWhile_locator (locator rest : Str) (hat : '@' ∉ locator) (hhash : '#' ∉ locator)
    (hrest : rest = [] ∨ (∃ r, rest = '@' :: r) ∨ (∃ r, rest = '#' :: r)) :
    ((locator ++ rest).takeWhile (· != '#')).takeWhile (· != '@') = locator := by
  induction locator with
  | nil =>
    rcases hrest with h | ⟨r, h⟩ | ⟨r, h⟩ <;> subst h <;> simp [List.takeWhile]
  | cons x xs ih =>
    simp only [List.mem_cons, not_or] at hat hhash
    have h1 : (x != '#') = true := by simpa using fun h => hhash.1 h.symm
    have h2 : (x != '@') = true := by simpa using fun h => hat.1 h.symm
    simp only [List.cons_append, List.takeWhile_cons, h1, h2, if_true]
    rw [ih hat.2 hhash.2]

theorem pluginRef_strip (locator : Str) (version variant : Option Str)
    (hat : '@' ∉ locator) (hhash : '#' ∉ locator) :
    ((pluginRef locator version variant none).takeWhile (· != '#')).takeWhile (· != '@')
      = locator := by
  have key : ∃ rest, pluginRef locator version variant none = locator ++ rest ∧
      (rest = [] ∨ (∃ r, rest = '@' :: r) ∨ (∃ r, rest = '#' :: r)) := by
    cases version with
    | none =>
      cases variant with
      | none => exact ⟨[], by simp [pluginRef], Or.inl rfl⟩
      | some w => exact ⟨'#' :: w, by simp [pluginRef], Or.inr (Or.inr ⟨w, rfl⟩)⟩
    | some v =>
      cases variant with
      | none => exact ⟨'@' :: v, by simp [pluginRef], Or.inr (Or.inl ⟨v, rfl⟩)⟩
      | some w =>
        exact ⟨'@' :: (v ++ '#' :: w), by simp [pluginRef], Or.inr (Or.inl ⟨_, rfl⟩)⟩
  obtain ⟨rest, h1, h2⟩ := key
  rw [h1, takeWhile_locator locator rest hat hhash h2]

theorem pluginName_no_alias (key : Str) (h : ¬ " as ".toList <:+: key) :
    pluginName key
      = (path.Split ((key.takeWhile (· != '#')).takeWhile (· != '@'))).2 := by
  unfold pluginName
  have hs : strings.Split key " as ".toList = [key] :=
    strings.Split_of_absent _ _ (by decide) h
  have e1 : "#".toList = ['#'] := rfl
  have e2 : "@".toList = ['@'] := rfl
  simp only [hs, List.length_singleton, gt_iff_lt, lt_self_iff_false, if_false, e1, e2,
    strings.Split_single_headD]

/-- C1, as the code has it: for a reference `locator[@version][#variant][ as alias]`
whose locator holds no `@`, no `#` and no `" as "`, and whose version, variant
and alias hold no `" as "`, `pluginName` returns the final path segment of the
locator when there is no alias, and returns the alias verbatim when there is
one and the text before `" as alias"` does not itself end in `" as"`.  The four
references of the specification resolve to `pkg`, `pkg`, `custom` and `x`. -/
theorem pluginName_canonical (locator : Str) (version variant aliasName : Option Str)
    (hat : '@' ∉ locator) (hhash : '#' ∉ locator)
    (hloc : ¬ " as ".toList <:+: locator)
    (hver : ∀ v, version = some v → ¬ " as ".toList <:+: v)
    (hvar : ∀ v, variant = some v → ¬ " as ".toList <:+: v)
    (halias : ∀ a, aliasName = some a → ¬ " as ".toList <:+: a)
    (hend : aliasName ≠ none → ¬ " as".toList <:+ pluginRef locator version variant none) :
    (∀ a, aliasName = some a → pluginName (pluginRef locator version variant aliasName) = a)
    ∧ (aliasName = none →
        IsFinalSegment locator (pluginName (pluginRef locator version variant aliasName)))
    ∧ pluginName "a/b/pkg@v1".toList = "pkg".toList
    ∧ pluginName "a/b/pkg#variant".toList = "pkg".toList
    ∧ pluginName "a/b/pkg as custom".toList = "custom".toList
    ∧ pluginName "pkg@v1#variant as x".toList = "x".toList := by
  have hP := pluginRef_no_as locator version variant hloc hver hvar
  refine ⟨?_, ?_, by decide, by decide, by decide, by decide⟩
  · intro a ha
    subst ha
    rw [pluginRef_alias]
    unfold pluginName
    rw [strings.Split_as_append _ _ hP (hend (by simp)) (halias a rfl)]
    simp
  · intro ha
    subst ha
    rw [pluginName_no_alias _ hP, pluginRef_strip locator version variant hat hhash]
    exact path.Split_snd_final locator

/-- C1 witness: the reference `a/b/pkg@v1#variant as x`. -/
theorem pluginName_canonical_witness :
    pluginName (pluginRef "a/b/pkg".toList (some "v1".toList) (some "variant".toList)
      (some "x".toList)) = "x".toList :=
  (pluginName_canonical "a/b/pkg".toList (some "v1".toList) (some "variant".toList)
    (some "x".toList) (by decide) (by decide)
    ((strings.Contains_eq_false_iff _ _).1 (by decide))
    (fun v hv => by
      cases hv; exact (strings.Contains_eq_false_iff _ _).1 (by decide))
    (fun v hv => by
      cases hv; exact (strings.Contains_eq_false_iff _ _).1 (by decide))
    (fun v hv => by
      cases hv; exact (strings.Contains_eq_false_iff _ _).1 (by decide))
    (fun _ => by decide)).1 _ rfl

/-- C1 fails as written: the locator `pkg as` holds no `@`, no `#` and no
`" as "`, the alias `x` holds no `" as "`, yet the reference `pkg as as x`
resolves to `as x`, not to the alias `x`. -/
theorem pluginName_alias_counterexample :
    '@' ∉ "pkg as".toList ∧ '#' ∉ "pkg as".toList
    ∧ strings.Contains "pkg as".toList " as ".toList = false
    ∧ strings.Contains "x".toList " as ".toList = false
    ∧ pluginRef "pkg as".toList none none (some "x".toList) = "pkg as as x".toList
    ∧ pluginName (pluginRef "pkg as".toList none none (some "x".toList)) = "as x".toList
    ∧ pluginName (pluginRef "pkg as".toList none none (some "x".toList)) ≠ "x".toList := by
  decide

/-! ## The `require` filter -/

/-- The plugin a handler reference names, as the loops compute it, is the text
before the first dot of the reference. -/
theorem pluginKey_eq (handler : Str) :
    (strings.Split handler ".".toList).headD [] = handler.takeWhile (· != '.') :=
  strings.Split_single_headD '.' handler

theorem Service.groupHasPlugin_iff (filter : Str) (handlers : List Str) :
    Service.groupHasPlugin filter handlers = true ↔
      ∃ h ∈ handlers, h.takeWhile (· != '.') <:+: filter := by
  induction handlers with
  | nil => simp [Service.groupHasPlugin]
  | cons h hs ih =>
    unfold Service.groupHasPlugin
    rw [pluginKey_eq]
    by_cases hc : strings.Contains filter (h.takeWhile (· != '.')) = true
    · have := (strings.Contains_iff _ _).1 hc
      simp only [hc, if_true, List.mem_cons, exists_eq_or_imp, true_iff]
      exact Or.inl this
    · have hn : ¬ h.takeWhile (· != '.') <:+: filter := fun hh => hc ((strings.Contains_iff _ _).2 hh)
      simp only [hc, Bool.false_eq_true, if_false, ih, List.mem_cons, exists_eq_or_imp, hn,
        false_or]

theorem Service.routeHasPlugin_iff (filter : Str) (handlers : List Str) :
    Service.routeHasPlugin filter handlers = true ↔
      ∀ h ∈ handlers, h.takeWhile (· != '.') <:+: filter := by
  induction handlers with
  | nil => simp [Service.routeHasPlugin]
  | cons h hs ih =>
    unfold Service.routeHasPlugin
    rw [pluginKey_eq]
    by_cases hc : strings.Contains filter (h.takeWhile (· != '.')) = true
    · have := (strings.Contains_iff _ _).1 hc
      simp only [hc, Bool.not_true, Bool.false_eq_true, if_false, ih, List.mem_cons,
        forall_eq_or_imp, this, true_and]
    · have hn : ¬ h.takeWhile (· != '.') <:+: filter := fun hh => hc ((strings.Contains_iff _ _).2 hh)
      have hf : strings.Contains filter (h.takeWhile (· != '.')) = false := by simpa using hc
      simp only [hf, Bool.not_false, if_true, Bool.false_eq_true, List.mem_cons,
        forall_eq_or_imp, hn, false_and]

/-- C2: the loop of `initRoutes` takes `continue` for a route exactly when the
`require` flag is present and some handler reference of the route names a
plugin, the text before its first dot, that does not occur in the flag.  A
skipped route leaves the service as it was.  Without the flag no route is
skipped; with the flag `A`, the route `[A.h, B.h]` is skipped and the route
`[A.h]` is not. -/
theorem initRoutes_filter_all (lower : Char → Char) (s : Service) (i : Nat)
    (r : config.Route) :
    (Service.routeSkipped (s.cfg.Flags "require".toList) r.Handlers = true ↔
      ∃ filter, s.cfg.Flags "require".toList = some filter ∧
        ∃ h ∈ r.Handlers, ¬ h.takeWhile (· != '.') <:+: filter)
    ∧ (Service.routeSkipped (s.cfg.Flags "require".toList) r.Handlers = true →
        Service.initRoute lower (s.cfg.Flags "require".toList) s i r = (s, Outcome.ok))
    ∧ (s.cfg.Flags "require".toList = none →
        Service.routeSkipped (s.cfg.Flags "require".toList) r.Handlers = false)
    ∧ Service.routeSkipped (some "A".toList) ["A.h".toList, "B.h".toList] = true
    ∧ Service.routeSkipped (some "A".toList) ["A.h".toList] = false := by
  generalize s.cfg.Flags "require".toList = require
  refine ⟨?_, ?_, ?_, by decide, by decide⟩
  · cases require with
    | none => simp [Service.routeSkipped]
    | some filter =>
      have h := Service.routeHasPlugin_iff filter r.Handlers
      simp only [Service.routeSkipped, Bool.not_eq_true', Option.some.injEq, exists_eq_left']
      rw [← Bool.not_eq_true, h]
      push_neg
      rfl
  · intro h
    simp [Service.initRoute, h]
  · intro h
    simp [h, Service.routeSkipped]

/-- C2 witness: under the flag `A` the route `[A.h, B.h]` is passed over, the
service left as it was, and of the two routes only `[A.h]` is registered. -/
theorem initRoutes_filter_all_witness :
    Service.initRoute Sample.lower (Sample.filtered.cfg.Flags "require".toList)
        Sample.filtered 0 (Sample.route "" "GET" "/ab" ["A.h", "B.h"])
      = (Sample.filtered, Outcome.ok)
    ∧ (Service.initRoutes Sample.lower Sample.filtered).1.srv.routes
      = [⟨Scope.srv, Method.GET, "/a".toList, [1]⟩] :=
  ⟨(initRoutes_filter_all Sample.lower Sample.filtered 0
      (Sample.route "" "GET" "/ab" ["A.h", "B.h"])).2.1 (by decide), by decide⟩

/-! ## The calls `initGroups` makes -/

theorem map_set_same {α β : Type} (f : α → β) (l : List α) (i : Nat) (a : α)
    (h : ∀ b, l[i]? = some b → f a = f b) : (l.set i a).map f = l.map f := by
  induction l generalizing i with
  | nil => rfl
  | cons x xs ih =>
    cases i with
    | zero =>
      simp only [List.set_cons_zero, List.map_cons]
      rw [h x (by simp)]
    | succ i =>
      simp only [List.set_cons_succ, List.map_cons]
      rw [ih i (fun b hb => h b (by simpa using hb))]

theorem config.Group.Init_Handlers (g g1 : config.Group) (p : plugins.Plugins)
    (h : g.Init p = .ok g1) : g1.Handlers = g.Handlers := by
  unfold config.Group.Init at h
  split at h
  · cases h; rfl
  · cases h

theorem Service.initGroup_Handlers (s : Service) (gi : Nat) :
    (s.initGroup gi).1.cfg.Groups.map (·.Handlers) = s.cfg.Groups.map (·.Handlers) := by
  unfold Service.initGroup
  split
  · rfl
  · rename_i group hgroup
    split
    · rfl
    · rename_i g1 hinit
      have hH := config.Group.Init_Handlers group g1 s.Plugins hinit
      have h1 : (s.cfg.Groups.set gi g1).map (·.Handlers) = s.cfg.Groups.map (·.Handlers) :=
        map_set_same _ _ _ _ (fun b hb => by rw [hgroup] at hb; cases hb; exact hH)
      dsimp only
      split
      · exact h1
      · split
        · exact h1
        · simp only [Service.setGroup, List.set_set]
          exact map_set_same _ _ _ _ (fun b hb => by rw [hgroup] at hb; cases hb; exact hH)

theorem Service.initGroupsLoop_Handlers (require : Option Str) (gis : List Nat) (s : Service) :
    (Service.initGroupsLoop require gis s).1.cfg.Groups.map (·.Handlers)
      = s.cfg.Groups.map (·.Handlers) := by
  induction gis generalizing s with
  | nil => rfl
  | cons gi rest ih =>
    unfold Service.initGroupsLoop
    split
    · rfl
    · split
      · exact ih s
      · have hH := Service.initGroup_Handlers s gi
        split
        · rename_i heq
          rw [heq] at hH
          exact hH
        · rename_i heq
          rw [heq] at hH
          rw [ih, hH]

theorem Service.initGroupsLoop_append (require : Option Str) (pre post : List Nat)
    (s : Service) :
    Service.initGroupsLoop require (pre ++ post) s =
      match Service.initGroupsLoop require pre s with
      | (s1, Outcome.panic) => (s1, Outcome.panic)
      | (s1, _) => Service.initGroupsLoop require post s1 := by
  induction pre generalizing s with
  | nil => simp [Service.initGroupsLoop]
  | cons gi rest ih =>
    rw [List.cons_append]
    simp only [Service.initGroupsLoop]
    split
    · rfl
    · split
      · exact ih s
      · split
        · rfl
        · exact ih _

theorem Service.initGroupsCalls_append (require : Option Str) (pre post : List Nat)
    (s : Service) :
    Service.initGroupsCalls require (pre ++ post) s =
      Service.initGroupsCalls require pre s ++
        match Service.initGroupsLoop require pre s with
        | (_, Outcome.panic) => []
        | (s1, _) => Service.initGroupsCalls require post s1 := by
  induction pre generalizing s with
  | nil => simp [Service.initGroupsLoop, Service.initGroupsCalls]
  | cons gi rest ih =>
    rw [List.cons_append]
    simp only [Service.initGroupsLoop, Service.initGroupsCalls]
    split
    · rfl
    · split
      · exact ih s
      · split
        · simp
        · rw [ih]; simp

theorem Service.initGroupsCalls_sublist (require : Option Str) (gis : List Nat) (s : Service) :
    List.Sublist (Service.initGroupsCalls require gis s) gis := by
  induction gis generalizing s with
  | nil => simp [Service.initGroupsCalls]
  | cons gi rest ih =>
    unfold Service.initGroupsCalls
    split
    · simp
    · split
      · exact (ih s).cons _
      · split
        · simp
        · exact (ih _).cons₂ _

/-- The service `initGroupsLoop` reaches is the one the calls of `initGroup`
listed by `initGroupsCalls` leave, made in that order. -/
theorem Service.initGroupsLoop_calls (require : Option Str) (gis : List Nat) (s : Service) :
    (Service.initGroupsLoop require gis s).1
      = (Service.initGroupsCalls require gis s).foldl (fun st gi => (st.initGroup gi).1) s := by
  induction gis generalizing s with
  | nil => rfl
  | cons gi rest ih =>
    unfold Service.initGroupsLoop Service.initGroupsCalls
    split
    · rfl
    · split
      · exact ih s
      · split
        · rename_i heq
          simp [heq]
        · rename_i heq
          simp only [List.foldl_cons, heq]
          exact ih _


theorem Service.initGroupsCalls_mem (require : Option Str) (pre rest : List Nat) (gi : Nat)
    (s : Service) (group : config.Group) (hpre : gi ∉ pre) (hrest : gi ∉ rest)
    (hgroup : s.cfg.Groups[gi]? = some group)
    (hreach : (Service.initGroupsLoop require pre s).2 ≠ Outcome.panic) :
    gi ∈ Service.initGroupsCalls require (pre ++ gi :: rest) s ↔
      Service.groupSkipped require group.Handlers = false := by
  rw [Service.initGroupsCalls_append, List.mem_append]
  have h1 : gi ∉ Service.initGroupsCalls require pre s :=
    fun h => hpre ((Service.initGroupsCalls_sublist require pre s).subset h)
  have hH := Service.initGroupsLoop_Handlers require pre s
  cases hloop : Service.initGroupsLoop require pre s with
  | mk s1 o =>
    rw [hloop] at hreach hH
    have hg1 : ∃ g1, s1.cfg.Groups[gi]? = some g1 ∧ g1.Handlers = group.Handlers := by
      have := congrArg (fun l => l[gi]?) hH
      simp only [List.getElem?_map, hgroup, Option.map_some'] at this
      cases hx : s1.cfg.Groups[gi]? with
      | none => rw [hx] at this; cases this
      | some g1 =>
        rw [hx] at this
        exact ⟨g1, rfl, by simpa using this⟩
    obtain ⟨g1, hg1, hh1⟩ := hg1
    have hcalls : gi ∈ Service.initGroupsCalls require (gi :: rest) s1 ↔
        Service.groupSkipped require group.Handlers = false := by
      unfold Service.initGroupsCalls
      simp only [hg1, hh1]
      by_cases hskip : Service.groupSkipped require group.Handlers = true
      · simp only [hskip, if_true, Bool.true_eq_false, iff_false]
        exact fun h => hrest ((Service.initGroupsCalls_sublist require rest s1).subset h)
      · have hf : Service.groupSkipped require group.Handlers = false := by simpa using hskip
        simp only [hf, Bool.false_eq_true, if_false, iff_true]
        split <;> simp
    cases o with
    | ok => simpa [h1] using hcalls
    | err e => simpa [h1] using hcalls
    | panic => exact absurd rfl hreach

theorem range_split (n gi : Nat) (h : gi < n) :
    List.range n = List.range gi ++ gi :: (List.range n).drop (gi + 1) := by
  have h2 : gi < (List.range n).length := by simpa using h
  have := List.take_append_drop gi (List.range n)
  rw [List.take_range, Nat.min_eq_left (Nat.le_of_lt h), List.drop_eq_getElem_cons h2,
    List.getElem_range] at this
  exact this.symm

/-- C3, as the code has it: for a declared group that the loop of `initGroups`
reaches, no call of `initGroup` on an earlier group having panicked, the loop
passes the group over, not calling `initGroup` for it, exactly when the
`require` flag is present and no handler reference of the group names a
plugin, the text before its first dot, that occurs in the flag; without the
flag `initGroup` is called for it.  The calls are made in the order of
declaration, once at most for a group, and the service `initGroups` reaches
is the one these calls leave.  With the flag `A`, the group `[A.h, B.h]` is
not passed over. -/
theorem initGroups_filter_any (s : Service) (gi : Nat) (group : config.Group)
    (hgroup : s.cfg.Groups[gi]? = some group)
    (hreach : (Service.initGroupsLoop (s.cfg.Flags "require".toList) (List.range gi) s).2
      ≠ Outcome.panic) :
    (gi ∉ s.initGroupCalls ↔
      ∃ filter, s.cfg.Flags "require".toList = some filter ∧
        ∀ h ∈ group.Handlers, ¬ h.takeWhile (· != '.') <:+: filter)
    ∧ (s.cfg.Flags "require".toList = none → gi ∈ s.initGroupCalls)
    ∧ List.Sublist s.initGroupCalls (List.range s.cfg.Groups.length)
    ∧ s.initGroups.1 = s.initGroupCalls.foldl (fun st g => (st.initGroup g).1) s
    ∧ Service.groupSkipped (some "A".toList) ["A.h".toList, "B.h".toList] = false := by
  have hlt : gi < s.cfg.Groups.length := by
    by_contra hge
    rw [List.getElem?_eq_none (Nat.le_of_not_lt hge)] at hgroup
    cases hgroup
  have hne : ¬ s.cfg.Groups.length = 0 := by omega
  have hsplit := range_split s.cfg.Groups.length gi hlt
  have hnd := List.nodup_range s.cfg.Groups.length
  rw [hsplit] at hnd
  have hrest : gi ∉ (List.range s.cfg.Groups.length).drop (gi + 1) :=
    (List.nodup_cons.1 (List.nodup_append.1 hnd).2.1).1
  have hpre : gi ∉ List.range gi := by simp
  have hmem : gi ∈ s.initGroupCalls ↔
      Service.groupSkipped (s.cfg.Flags "require".toList) group.Handlers = false := by
    unfold Service.initGroupCalls
    rw [if_neg hne, hsplit]
    exact Service.initGroupsCalls_mem _ _ _ gi s group hpre hrest hgroup hreach
  refine ⟨?_, ?_, ?_, ?_, by decide⟩
  · rw [hmem]
    generalize s.cfg.Flags "require".toList = require
    cases require with
    | none => simp [Service.groupSkipped]
    | some filter =>
      have h := Service.groupHasPlugin_iff filter group.Handlers
      simp only [Service.groupSkipped, Bool.not_eq_false', Bool.not_eq_true', Option.some.injEq,
        exists_eq_left', Bool.not_eq_false]
      rw [h]
      push_neg
      rfl
  · intro hnone
    rw [hmem, hnone]
    rfl
  · unfold Service.initGroupCalls
    rw [if_neg hne]
    exact Service.initGroupsCalls_sublist _ _ s
  · unfold Service.initGroupCalls Service.initGroups
    rw [if_neg hne, if_neg hne]
    exact Service.initGroupsLoop_calls _ _ s

/-- C3 witness: under the flag `A` the group `[B.h]`, declared second, is
reached and passed over; `initGroup` is called for the group `[A.h, B.h]`
alone, and of the two groups only that one gets a node. -/
theorem initGroups_filter_any_witness :
    (∃ filter, Sample.filtered.cfg.Flags "require".toList = some filter ∧
        ∀ h ∈ (Sample.group "b" "" "/b" ["B.h"]).Handlers,
          ¬ h.takeWhile (· != '.') <:+: filter)
    ∧ Sample.filtered.initGroupCalls = [0]
    ∧ Sample.filtered.initGroups.1.srv.groups = [⟨Scope.srv, "/ab".toList, [1, 2]⟩] :=
  ⟨(initGroups_filter_any Sample.filtered 1 (Sample.group "b" "" "/b" ["B.h"]) rfl
      (by decide)).1.1 (by decide),
    by decide, by decide⟩

/-- C3 fails as written: no flag is set and the parent group, declared second,
is a declared group that the filter lets through, yet `initGroup` is not called
for it: the call on the child, declared first, panics and ends `initGroups`. -/
theorem initGroups_unreached_counterexample :
    Sample.childFirst.cfg.Flags "require".toList = none
    ∧ Sample.childFirst.cfg.Groups[1]? = some (Sample.group "parent" "" "/p" [])
    ∧ Service.groupSkipped (Sample.childFirst.cfg.Flags "require".toList)
        (Sample.group "parent" "" "/p" []).Handlers = false
    ∧ Sample.childFirst.initGroupCalls = [0]
    ∧ 1 ∉ Sample.childFirst.initGroupCalls
    ∧ Sample.childFirst.initGroups.2 = Outcome.panic := by
  decide

/-! ## Composition of groups and routes -/

theorem Service.initGroup_Plugins (s : Service) (gi : Nat) :
    (s.initGroup gi).1.Plugins = s.Plugins := by
  unfold Service.initGroup
  split
  · rfl
  · split
    · rfl
    · dsimp only
      split
      · rfl
      · split <;> rfl

theorem Service.initGroup_routes (s : Service) (gi : Nat) :
    (s.initGroup gi).1.srv.routes = s.srv.routes := by
  unfold Service.initGroup
  split
  · rfl
  · split
    · rfl
    · dsimp only
      split
      · rfl
      · split <;> rfl

theorem config.Route.Init_ok (r r1 : config.Route) (p : plugins.Plugins)
    (h : r.Init p = .ok r1) :
    config.resolveHandlers p r.Handlers = .ok r1.HttpHandlers
    ∧ r1.Group = r.Group ∧ r1.Method = r.Method ∧ r1.HTTPPath = r.HTTPPath
    ∧ r1.Handlers = r.Handlers := by
  unfold config.Route.Init at h
  split at h
  · rename_i hs hres
    cases h
    exact ⟨hres, rfl, rfl, rfl, rfl⟩
  · cases h

/-- What a pass of the loop body of `initRoutes` that returns normally does
for a route the filter lets through: one registration, appended. -/
theorem Service.initRoute_ok (lower : Char → Char) (require : Option Str) (s s1 : Service)
    (i : Nat) (r : config.Route)
    (hpass : Service.routeSkipped require r.Handlers = false)
    (hok : Service.initRoute lower require s i r = (s1, Outcome.ok)) :
    ∃ hs grp, config.resolveHandlers s.Plugins r.Handlers = .ok hs
      ∧ s1.srv.routes = s.srv.routes ++ [⟨grp, Service.methodOf lower r.Method, r.HTTPPath, hs⟩]
      ∧ ((s.cfg.GetGroup r.Group = .ok none ∧ grp = Scope.srv)
          ∨ ∃ mi, s.cfg.GetGroup r.Group = .ok (some mi) ∧ s1.groupNode mi = some grp) := by
  unfold Service.initRoute at hok
  simp only [hpass, Bool.false_eq_true, if_false] at hok
  split at hok
  · cases hok
  · rename_i r1 hinit
    obtain ⟨hres, hg, hm, hp, _⟩ := config.Route.Init_ok r r1 s.Plugins hinit
    have hget : ∀ n, (s.setRoute i r1).cfg.GetGroup n = s.cfg.GetGroup n := fun _ => rfl
    rw [hget, hg] at hok
    split at hok
    · cases hok
    · rename_i hgg
      cases hok
      exact ⟨r1.HttpHandlers, Scope.srv, hres, by simp [httpserve.Serve.Handle, Service.setRoute, hm, hp],
        Or.inl ⟨hgg, rfl⟩⟩
    · rename_i mi hgg
      split at hok
      · cases hok
      · rename_i s2 o hnp hres2
        split at hok
        · cases hok
        · rename_i grp hnode
          cases hok
          refine ⟨r1.HttpHandlers, grp, hres, ?_, Or.inr ⟨mi, hgg, hnode⟩⟩
          have hr : s2.srv.routes = s.srv.routes := by
            by_cases hn : (s.setRoute i r1).groupNode mi = none
            · rw [if_pos hn] at hres2
              have := Service.initGroup_routes (s.setRoute i r1) mi
              rw [hres2] at this
              exact this
            · rw [if_neg hn] at hres2
              cases hres2
              rfl
          simp [httpserve.Serve.Handle, hr, hm, hp]

theorem Service.initRoute_skip (lower : Char → Char) (require : Option Str) (s : Service)
    (i : Nat) (r : config.Route) (h : Service.routeSkipped require r.Handlers = true) :
    Service.initRoute lower require s i r = (s, Outcome.ok) := by
  simp [Service.initRoute, h]

theorem Service.initRoute_unresolved (lower : Char → Char) (require : Option Str)
    (s : Service) (i : Nat) (r : config.Route) (e : Error)
    (hpass : Service.routeSkipped require r.Handlers = false)
    (hfail : r.Init s.Plugins = .error e) :
    Service.initRoute lower require s i r = (s, Outcome.err (Error.routeInit i e)) := by
  simp [Service.initRoute, hpass, hfail]

theorem Service.initRoute_Plugins (lower : Char → Char) (require : Option Str) (s : Service)
    (i : Nat) (r : config.Route) :
    (Service.initRoute lower require s i r).1.Plugins = s.Plugins := by
  unfold Service.initRoute
  split
  · rfl
  · split
    · rfl
    · rename_i r1 _
      dsimp only
      split
      · rfl
      · rfl
      · rename_i mi _
        have hP : (if (s.setRoute i r1).groupNode mi = none then (s.setRoute i r1).initGroup mi
            else (s.setRoute i r1, Outcome.ok)).1.Plugins = s.Plugins := by
          by_cases hn : (s.setRoute i r1).groupNode mi = none
          · rw [if_pos hn, Service.initGroup_Plugins]; rfl
          · rw [if_neg hn]; rfl
        split
        · rename_i heq
          rw [heq] at hP
          exact hP
        · rename_i heq
          rw [heq] at hP
          split
          · exact hP
          · exact hP

theorem Service.initRoutesLoop_Plugins (lower : Char → Char) (require : Option Str)
    (rs : List config.Route) (i : Nat) (s : Service) :
    (Service.initRoutesLoop lower require i rs s).1.Plugins = s.Plugins := by
  induction rs generalizing i s with
  | nil => rfl
  | cons r rs ih =>
    unfold Service.initRoutesLoop
    have hP := Service.initRoute_Plugins lower require s i r
    split
    · rename_i s1 heq
      rw [heq] at hP
      rw [ih, hP]
    · exact hP

theorem Service.initRoutesLoop_append (lower : Char → Char) (require : Option Str)
    (pre post : List config.Route) (i : Nat) (s : Service) :
    Service.initRoutesLoop lower require i (pre ++ post) s =
      match Service.initRoutesLoop lower require i pre s with
      | (s1, Outcome.ok) => Service.initRoutesLoop lower require (i + pre.length) post s1
      | res => res := by
  induction pre generalizing i s with
  | nil => simp [Service.initRoutesLoop]
  | cons r rs ih =>
    rw [List.cons_append]
    simp only [Service.initRoutesLoop, List.length_cons]
    split
    · rename_i s1 heq
      rw [ih]
      have : i + 1 + rs.length = i + (rs.length + 1) := by omega
      rw [this]
    · rename_i res hne
      split
      · rename_i s1 heq
        exact absurd heq (hne s1)
      · rfl

/-- The registrations a normally returning run of the loop of `initRoutes`
appends: one for each route the filter lets through, in order. -/
theorem Service.initRoutesLoop_ok (lower : Char → Char) (require : Option Str)
    (rs : List config.Route) (i : Nat) (s s1 : Service)
    (h : Service.initRoutesLoop lower require i rs s = (s1, Outcome.ok)) :
    ∃ regs, s1.srv.routes = s.srv.routes ++ regs
      ∧ List.Forall₂
          (fun (r : config.Route) (reg : httpserve.Registration) =>
            reg.method = Service.methodOf lower r.Method ∧ reg.path = r.HTTPPath
              ∧ config.resolveHandlers s.Plugins r.Handlers = .ok reg.handlers)
          (rs.filter fun r => !Service.routeSkipped require r.Handlers) regs := by
  induction rs generalizing i s with
  | nil =>
    simp only [Service.initRoutesLoop, Prod.mk.injEq, and_true] at h
    subst h
    exact ⟨[], by simp, by simp⟩
  | cons r rs ih =>
    unfold Service.initRoutesLoop at h
    split at h
    · rename_i s2 heq
      obtain ⟨regs, hregs, hall⟩ := ih (i + 1) s2 h
      have hP : s2.Plugins = s.Plugins := by
        have := Service.initRoute_Plugins lower require s i r
        rw [heq] at this
        exact this
      rw [hP] at hall
      by_cases hskip : Service.routeSkipped require r.Handlers = true
      · rw [Service.initRoute_skip lower require s i r hskip] at heq
        cases heq
        exact ⟨regs, hregs, by simpa [List.filter, hskip] using hall⟩
      · have hpass : Service.routeSkipped require r.Handlers = false := by simpa using hskip
        obtain ⟨hs, grp, hres, hroutes, _⟩ :=
          Service.initRoute_ok lower require s s2 i r hpass heq
        refine ⟨⟨grp, Service.methodOf lower r.Method, r.HTTPPath, hs⟩ :: regs, ?_, ?_⟩
        · rw [hregs, hroutes]; simp
        · simp only [List.filter, hpass, Bool.not_false]
          exact List.Forall₂.cons ⟨rfl, rfl, hres⟩ hall
    · rename_i res hne
      exact absurd h (hne s1)

/-- The run of `initRoutes` up to a route that the filter lets through and
whose handlers do not resolve, given that the routes before it are passed
normally. -/
theorem Service.initRoutes_stops (lower : Char → Char) (s s1 : Service)
    (pre post : List config.Route) (r : config.Route) (e : Error)
    (hroutes : s.cfg.Routes = pre ++ r :: post)
    (hpre : Service.initRoutesLoop lower (s.cfg.Flags "require".toList) 0 pre
      { s with srv := s.srv.SetPanic } = (s1, Outcome.ok))
    (hpass : Service.routeSkipped (s.cfg.Flags "require".toList) r.Handlers = false)
    (hfail : r.Init s.Plugins = .error e) :
    Service.initRoutes lower s = (s1, Outcome.err (Error.routeInit pre.length e)) := by
  unfold Service.initRoutes
  rw [hroutes, Service.initRoutesLoop_append, hpre]
  have hP : s1.Plugins = s.Plugins := by
    have := Service.initRoutesLoop_Plugins lower (s.cfg.Flags "require".toList) pre 0
      { s with srv := s.srv.SetPanic }
    rw [hpre] at this
    exact this
  simp only [Nat.zero_add]
  unfold Service.initRoutesLoop
  rw [Service.initRoute_unresolved lower _ s1 pre.length r e hpass (by rw [hP]; exact hfail)]

/-- C4, as the code has it: when the route at position `i` passes the filter
and its handler references do not resolve, and `initRoutes` gets past every
route before it (each is skipped or registered; none fails its handler
resolution or its group lookup, none panics on a group without a node), then
`initRoutes` returns the route-initialisation error carrying the position `i`,
and the route is not registered: the router is as the routes before left it. -/
theorem initRoutes_reports_position (lower : Char → Char) (s s1 : Service)
    (pre post : List config.Route) (r : config.Route) (e : Error)
    (hroutes : s.cfg.Routes = pre ++ r :: post)
    (hpre : Service.initRoutesLoop lower (s.cfg.Flags "require".toList) 0 pre
      { s with srv := s.srv.SetPanic } = (s1, Outcome.ok))
    (hpass : Service.routeSkipped (s.cfg.Flags "require".toList) r.Handlers = false)
    (hfail : r.Init s.Plugins = .error e) :
    (Service.initRoutes lower s).2 = Outcome.err (Error.routeInit pre.length e)
    ∧ (Service.initRoutes lower s).1.srv = s1.srv := by
  rw [Service.initRoutes_stops lower s s1 pre post r e hroutes hpre hpass hfail]
  exact ⟨rfl, rfl⟩

/-- C4 witness: a registered route at position 0, an unresolvable one at
position 1. -/
theorem initRoutes_reports_position_witness :
    (Service.initRoutes Sample.lower Sample.goodThenBad).2
        = Outcome.err (Error.routeInit 1 (Error.unresolved "missing.h".toList))
    ∧ (Service.initRoutes Sample.lower Sample.goodThenBad).1.srv
        = ⟨[], [⟨Scope.srv, Method.POST, "/good".toList, [1]⟩], true⟩ :=
  initRoutes_reports_position Sample.lower Sample.goodThenBad
    (Service.initRoutesLoop Sample.lower none 0 [Sample.route "" "POST" "/good" ["A.h"]]
      { Sample.goodThenBad with srv := Sample.goodThenBad.srv.SetPanic }).1
    [Sample.route "" "POST" "/good" ["A.h"]] [] (Sample.route "" "GET" "/bad" ["missing.h"])
    (Error.unresolved "missing.h".toList) rfl rfl (by decide) rfl

/-- C4 fails as written: in both configurations the first route that passes
the filter and whose handlers do not resolve is at position 1, yet `initRoutes`
does not return an error for position 1.  In the first the route at position 0
names an undeclared group and the lookup error is returned as it is; in the
second the route at position 0 names a group whose node cannot be created and
the registration panics. -/
theorem initRoutes_position_counterexample :
    Sample.lostGroupThenBad.cfg.Routes.map
        (fun r => (Service.routeSkipped (Sample.lostGroupThenBad.cfg.Flags "require".toList)
            r.Handlers,
          (config.resolveHandlers Sample.lostGroupThenBad.Plugins r.Handlers).toBool))
      = [(false, true), (false, false)]
    ∧ (Service.initRoutes Sample.lower Sample.lostGroupThenBad).2
        = Outcome.err (Error.groupNotFound "nowhere".toList)
    ∧ Sample.nilGroupThenBad.cfg.Routes.map
        (fun r => (Service.routeSkipped (Sample.nilGroupThenBad.cfg.Flags "require".toList)
            r.Handlers,
          (config.resolveHandlers Sample.nilGroupThenBad.Plugins r.Handlers).toBool))
      = [(false, true), (false, false)]
    ∧ (Service.initRoutes Sample.lower Sample.nilGroupThenBad).2 = Outcome.panic := by
  decide

/-- C5, as the code has it: when `initRoutes` stops at a route whose handlers
do not resolve, every route declared before it that passes the filter has
been registered, once and in order, with its method, its path and its
resolved handler chain; nothing else has been registered, so no route declared
after the failing one is. -/
theorem initRoutes_registers_earlier (lower : Char → Char) (s s1 : Service)
    (pre post : List config.Route) (r : config.Route) (e : Error)
    (hroutes : s.cfg.Routes = pre ++ r :: post)
    (hpre : Service.initRoutesLoop lower (s.cfg.Flags "require".toList) 0 pre
      { s with srv := s.srv.SetPanic } = (s1, Outcome.ok))
    (hpass : Service.routeSkipped (s.cfg.Flags "require".toList) r.Handlers = false)
    (hfail : r.Init s.Plugins = .error e) :
    ∃ regs, (Service.initRoutes lower s).1.srv.routes = s.srv.routes ++ regs
      ∧ List.Forall₂
          (fun (r : config.Route) (reg : httpserve.Registration) =>
            reg.method = Service.methodOf lower r.Method ∧ reg.path = r.HTTPPath
              ∧ config.resolveHandlers s.Plugins r.Handlers = .ok reg.handlers)
          (pre.filter fun r =>
            !Service.routeSkipped (s.cfg.Flags "require".toList) r.Handlers) regs := by
  rw [Service.initRoutes_stops lower s s1 pre post r e hroutes hpre hpass hfail]
  exact Service.initRoutesLoop_ok lower _ pre 0 { s with srv := s.srv.SetPanic } s1 hpre

/-- C5 witness: the route before the failing one is registered. -/
theorem initRoutes_registers_earlier_witness :
    ∃ regs, (Service.initRoutes Sample.lower Sample.goodThenBad).1.srv.routes
        = Sample.goodThenBad.srv.routes ++ regs
      ∧ List.Forall₂
          (fun (r : config.Route) (reg : httpserve.Registration) =>
            reg.method = Service.methodOf Sample.lower r.Method ∧ reg.path = r.HTTPPath
              ∧ config.resolveHandlers Sample.goodThenBad.Plugins r.Handlers
                  = .ok reg.handlers)
          ([Sample.route "" "POST" "/good" ["A.h"]].filter fun r =>
            !Service.routeSkipped (Sample.goodThenBad.cfg.Flags "require".toList) r.Handlers)
          regs :=
  initRoutes_registers_earlier Sample.lower Sample.goodThenBad
    (Service.initRoutesLoop Sample.lower none 0 [Sample.route "" "POST" "/good" ["A.h"]]
      { Sample.goodThenBad with srv := Sample.goodThenBad.srv.SetPanic }).1
    [Sample.route "" "POST" "/good" ["A.h"]] [] (Sample.route "" "GET" "/bad" ["missing.h"])
    (Error.unresolved "missing.h".toList) rfl rfl (by decide) rfl

/-- C5 fails as written: the route `/bad` at position 0 does not resolve; the
route `/good` after it passes the filter, its handlers resolve and it names no
group, yet `initRoutes` returns at `/bad` and registers nothing. -/
theorem initRoutes_later_counterexample :
    Sample.badThenGood.cfg.Routes
        = [Sample.route "" "GET" "/bad" ["missing.h"], Sample.route "" "POST" "/good" ["A.h"]]
    ∧ (config.resolveHandlers Sample.badThenGood.Plugins
        (Sample.route "" "GET" "/bad" ["missing.h"]).Handlers).toBool = false
    ∧ Service.routeSkipped (Sample.badThenGood.cfg.Flags "require".toList)
        (Sample.route "" "POST" "/good" ["A.h"]).Handlers = false
    ∧ (config.resolveHandlers Sample.badThenGood.Plugins
        (Sample.route "" "POST" "/good" ["A.h"]).Handlers).toBool = true
    ∧ (Sample.badThenGood.cfg.GetGroup (Sample.route "" "POST" "/good" ["A.h"]).Group).toBool
        = true
    ∧ (Service.initRoutes Sample.lower Sample.badThenGood).2
        = Outcome.err (Error.routeInit 0 (Error.unresolved "missing.h".toList))
    ∧ (Service.initRoutes Sample.lower Sample.badThenGood).1.srv.routes = [] := by
  decide

/-! ## The method of a registration -/

theorem toNat_ofNat_small (n : Nat) (h : n < 55296) : (Char.ofNat n).toNat = n := by
  have hv : n.isValidChar := Or.inl h
  unfold Char.ofNat
  rw [dif_pos hv]
  rfl

theorem unicode.ToLower_letter_iff (table : Char → Char)
    (htable : ∀ c : Char, 128 ≤ c.toNat → 128 ≤ (table c).toNat) (c y : Char)
    (hy : 97 ≤ y.toNat ∧ y.toNat ≤ 122) :
    unicode.ToLower table c = y ↔ sameLetter c y := by
  have hi : ('i' : Char).toNat = 105 := rfl
  have hk : ('k' : Char).toNat = 107 := rfl
  unfold unicode.ToLower sameLetter
  by_cases h1 : c.toNat ≤ 127
  · rw [if_pos h1]
    by_cases h2 : 65 ≤ c.toNat ∧ c.toNat ≤ 90
    · rw [if_pos h2]
      constructor
      · intro h
        have := congrArg Char.toNat h
        rw [toNat_ofNat_small _ (by omega)] at this
        exact Or.inr (Or.inl this)
      · rintro (h | h | ⟨h, _⟩ | ⟨h, _⟩)
        · have := congrArg Char.toNat h
          omega
        · rw [h, Char.ofNat_toNat]
        · omega
        · omega
    · rw [if_neg h2]
      constructor
      · intro h; exact Or.inl h
      · rintro (h | h | ⟨h, _⟩ | ⟨h, _⟩)
        · exact h
        · omega
        · omega
        · omega
  · rw [if_neg h1]
    by_cases h3 : c.toNat = 0x130
    · rw [if_pos h3]
      constructor
      · intro h; exact Or.inr (Or.inr (Or.inl ⟨h3, h.symm⟩))
      · rintro (h | h | ⟨_, h⟩ | ⟨h, _⟩)
        · have := congrArg Char.toNat h
          omega
        · omega
        · exact h.symm
        · omega
    · rw [if_neg h3]
      by_cases h4 : c.toNat = 0x212A
      · rw [if_pos h4]
        constructor
        · intro h; exact Or.inr (Or.inr (Or.inr ⟨h4, h.symm⟩))
        · rintro (h | h | ⟨h, _⟩ | ⟨_, h⟩)
          · have := congrArg Char.toNat h
            omega
          · omega
          · omega
          · exact h.symm
      · rw [if_neg h4]
        have ht := htable c (by omega)
        constructor
        · intro h
          have := congrArg Char.toNat h
          omega
        · rintro (h | h | ⟨h, _⟩ | ⟨h, _⟩)
          · have := congrArg Char.toNat h
            omega
          · omega
          · omega
          · omega

theorem strings.ToLower_word_iff (table : Char → Char)
    (htable : ∀ c : Char, 128 ≤ c.toNat → 128 ≤ (table c).toNat) (m t : Str)
    (ht : ∀ y ∈ t, 97 ≤ y.toNat ∧ y.toNat ≤ 122) :
    strings.ToLower (unicode.ToLower table) m = t ↔ equalIgnoringCase m t := by
  unfold strings.ToLower equalIgnoringCase
  induction m generalizing t with
  | nil =>
    cases t with
    | nil => simp
    | cons y ys => simp
  | cons c cs ih =>
    cases t with
    | nil => simp
    | cons y ys =>
      simp only [List.map_cons, List.cons.injEq, List.forall₂_cons]
      rw [unicode.ToLower_letter_iff table htable c y (ht y (by simp)),
        ih ys (fun z hz => ht z (by simp [hz]))]


theorem Service.methodOf_iff (lower : Char → Char) (m : Str) :
    (Service.methodOf lower m = Method.PUT ↔ strings.ToLower lower m = "put".toList)
    ∧ (Service.methodOf lower m = Method.POST ↔ strings.ToLower lower m = "post".toList)
    ∧ (Service.methodOf lower m = Method.DELETE ↔ strings.ToLower lower m = "delete".toList)
    ∧ (Service.methodOf lower m = Method.OPTIONS ↔ strings.ToLower lower m = "options".toList)
    ∧ (Service.methodOf lower m = Method.GET ↔
        strings.ToLower lower m ≠ "put".toList ∧ strings.ToLower lower m ≠ "post".toList
        ∧ strings.ToLower lower m ≠ "delete".toList
        ∧ strings.ToLower lower m ≠ "options".toList) := by
  have d1 : "put".toList ≠ "post".toList := by decide
  have d2 : "put".toList ≠ "delete".toList := by decide
  have d3 : "put".toList ≠ "options".toList := by decide
  have d4 : "post".toList ≠ "delete".toList := by decide
  have d5 : "post".toList ≠ "options".toList := by decide
  have d6 : "delete".toList ≠ "options".toList := by decide
  unfold Service.methodOf
  generalize strings.ToLower lower m = l
  by_cases h1 : l = "put".toList
  · subst h1
    simp only [if_true]
    refine ⟨by simp, ?_, ?_, ?_, ?_⟩
    · exact ⟨(fun h => nomatch h), fun h => absurd h d1⟩
    · exact ⟨(fun h => nomatch h), fun h => absurd h d2⟩
    · exact ⟨(fun h => nomatch h), fun h => absurd h d3⟩
    · exact ⟨(fun h => nomatch h), fun h => absurd rfl h.1⟩
  · rw [if_neg h1]
    by_cases h2 : l = "post".toList
    · subst h2
      simp only [if_true]
      refine ⟨?_, by simp, ?_, ?_, ?_⟩
      · exact ⟨(fun h => nomatch h), fun h => absurd h h1⟩
      · exact ⟨(fun h => nomatch h), fun h => absurd h d4⟩
      · exact ⟨(fun h => nomatch h), fun h => absurd h d5⟩
      · exact ⟨(fun h => nomatch h), fun h => absurd rfl h.2.1⟩
    · rw [if_neg h2]
      by_cases h3 : l = "delete".toList
      · subst h3
        simp only [if_true]
        refine ⟨?_, ?_, by simp, ?_, ?_⟩
        · exact ⟨(fun h => nomatch h), fun h => absurd h h1⟩
        · exact ⟨(fun h => nomatch h), fun h => absurd h h2⟩
        · exact ⟨(fun h => nomatch h), fun h => absurd h d6⟩
        · exact ⟨(fun h => nomatch h), fun h => absurd rfl h.2.2.1⟩
      · rw [if_neg h3]
        by_cases h4 : l = "options".toList
        · subst h4
          simp only [if_true]
          refine ⟨?_, ?_, ?_, by simp, ?_⟩
          · exact ⟨(fun h => nomatch h), fun h => absurd h h1⟩
          · exact ⟨(fun h => nomatch h), fun h => absurd h h2⟩
          · exact ⟨(fun h => nomatch h), fun h => absurd h h3⟩
          · exact ⟨(fun h => nomatch h), fun h => absurd rfl h.2.2.2⟩
        · rw [if_neg h4]
          refine ⟨?_, ?_, ?_, ?_, ?_⟩
          · exact ⟨(fun h => nomatch h), fun h => absurd h h1⟩
          · exact ⟨(fun h => nomatch h), fun h => absurd h h2⟩
          · exact ⟨(fun h => nomatch h), fun h => absurd h h3⟩
          · exact ⟨(fun h => nomatch h), fun h => absurd h h4⟩
          · exact ⟨fun _ => ⟨h1, h2, h3, h4⟩, fun _ => rfl⟩

/-- A route the filter lets through, whose handlers resolve and whose target
scope is the root or a node already created, is passed normally. -/
theorem Service.initRoute_reaches (lower : Char → Char) (require : Option Str) (s : Service)
    (i : Nat) (r : config.Route) (hs : List Handler)
    (hpass : Service.routeSkipped require r.Handlers = false)
    (hres : config.resolveHandlers s.Plugins r.Handlers = .ok hs)
    (htarget : s.cfg.GetGroup r.Group = .ok none
      ∨ ∃ mi grp, s.cfg.GetGroup r.Group = .ok (some mi) ∧ s.groupNode mi = some grp) :
    (Service.initRoute lower require s i r).2 = Outcome.ok := by
  have hinit : r.Init s.Plugins = .ok { r with HttpHandlers := hs } := by
    unfold config.Route.Init
    rw [hres]
  have hget : ∀ (r1 : config.Route) n, (s.setRoute i r1).cfg.GetGroup n = s.cfg.GetGroup n :=
    fun _ _ => rfl
  have hnode : ∀ (r1 : config.Route) mi, (s.setRoute i r1).groupNode mi = s.groupNode mi :=
    fun _ _ => rfl
  unfold Service.initRoute
  simp only [hpass, Bool.false_eq_true, if_false, hinit, hget, hnode]
  rcases htarget with h | ⟨mi, grp, h, hg⟩
  · rw [h]
  · rw [h]
    simp only [hg, reduceCtorEq, if_false, hnode]


/-- C8, as the code has it: for a route the filter lets through, a pass of the
loop body of `initRoutes` that returns normally has made exactly one
registration, on the target scope (the root when the route names no group,
the node of its group otherwise), with the route's path and its resolved
handler chain; and the pass does return normally when the handlers resolve and
the target scope is the root or a node already created.  The registration is
picked by the method with letter case ignored as `strings.ToLower` ignores it
(a letter equals its ASCII capital, U+0130 counts as `i` and U+212A as `k`):
PUT, POST, DELETE, OPTIONS exactly for the methods that are `put`, `post`,
`delete`, `options` in that sense, GET exactly for all others, the empty
method among them. -/
theorem initRoutes_method_dispatch (table : Char → Char) (require : Option Str)
    (s : Service) (i : Nat) (r : config.Route)
    (htable : ∀ c : Char, 128 ≤ c.toNat → 128 ≤ (table c).toNat)
    (hpass : Service.routeSkipped require r.Handlers = false) :
    (∀ s1, Service.initRoute (unicode.ToLower table) require s i r = (s1, Outcome.ok) →
      ∃ hs grp, config.resolveHandlers s.Plugins r.Handlers = .ok hs
        ∧ s1.srv.routes = s.srv.routes
            ++ [⟨grp, Service.methodOf (unicode.ToLower table) r.Method, r.HTTPPath, hs⟩]
        ∧ ((s.cfg.GetGroup r.Group = .ok none ∧ grp = Scope.srv)
            ∨ ∃ mi, s.cfg.GetGroup r.Group = .ok (some mi) ∧ s1.groupNode mi = some grp))
    ∧ (∀ hs, config.resolveHandlers s.Plugins r.Handlers = .ok hs →
        (s.cfg.GetGroup r.Group = .ok none
          ∨ ∃ mi grp, s.cfg.GetGroup r.Group = .ok (some mi) ∧ s.groupNode mi = some grp) →
        (Service.initRoute (unicode.ToLower table) require s i r).2 = Outcome.ok)
    ∧ (Service.methodOf (unicode.ToLower table) r.Method = Method.PUT ↔
        equalIgnoringCase r.Method "put".toList)
    ∧ (Service.methodOf (unicode.ToLower table) r.Method = Method.POST ↔
        equalIgnoringCase r.Method "post".toList)
    ∧ (Service.methodOf (unicode.ToLower table) r.Method = Method.DELETE ↔
        equalIgnoringCase r.Method "delete".toList)
    ∧ (Service.methodOf (unicode.ToLower table) r.Method = Method.OPTIONS ↔
        equalIgnoringCase r.Method "options".toList)
    ∧ (Service.methodOf (unicode.ToLower table) r.Method = Method.GET ↔
        ¬ equalIgnoringCase r.Method "put".toList
        ∧ ¬ equalIgnoringCase r.Method "post".toList
        ∧ ¬ equalIgnoringCase r.Method "delete".toList
        ∧ ¬ equalIgnoringCase r.Method "options".toList)
    ∧ Service.methodOf (unicode.ToLower table) [] = Method.GET := by
  have e1 := strings.ToLower_word_iff table htable r.Method "put".toList (by decide)
  have e2 := strings.ToLower_word_iff table htable r.Method "post".toList (by decide)
  have e3 := strings.ToLower_word_iff table htable r.Method "delete".toList (by decide)
  have e4 := strings.ToLower_word_iff table htable r.Method "options".toList (by decide)
  obtain ⟨m1, m2, m3, m4, m5⟩ := Service.methodOf_iff (unicode.ToLower table) r.Method
  refine ⟨fun s1 hok => Service.initRoute_ok _ require s s1 i r hpass hok,
    fun hs hres htarget => Service.initRoute_reaches _ require s i r hs hpass hres htarget,
    m1.trans e1, m2.trans e2, m3.trans e3, m4.trans e4, ?_, rfl⟩
  rw [m5, Ne, Ne, Ne, Ne, e1, e2, e3, e4]

/-- C8 witness: the route `pUt /x` in the group `g`, whose node the pass
creates, is registered once, under PUT, on that node; `pUt` is `put` with
letter case ignored; and `Delete`, `OPTIONS`, `OPTİONS`, `patch` and the
empty method pick DELETE, OPTIONS, OPTIONS, GET and GET. -/
theorem initRoutes_method_dispatch_witness :
    (∃ hs grp, config.resolveHandlers Sample.inGroup.Plugins
          (Sample.route "g" "pUt" "/x" ["B.h"]).Handlers = .ok hs
      ∧ (Service.initRoute Sample.lower none Sample.inGroup 0
          (Sample.route "g" "pUt" "/x" ["B.h"])).1.srv.routes
        = Sample.inGroup.srv.routes ++ [⟨grp, Method.PUT, "/x".toList, hs⟩])
    ∧ equalIgnoringCase "pUt".toList "put".toList
    ∧ (Service.initRoutes Sample.lower Sample.inGroup).1.srv.routes
        = [⟨Scope.group 0, Method.PUT, "/x".toList, [2]⟩]
    ∧ (Service.initRoutes Sample.lower Sample.inGroup).1.srv.groups
        = [⟨Scope.srv, "/g".toList, [1]⟩]
    ∧ Service.methodOf Sample.lower "Delete".toList = Method.DELETE
    ∧ Service.methodOf Sample.lower "OPTIONS".toList = Method.OPTIONS
    ∧ Service.methodOf Sample.lower "OPTİONS".toList = Method.OPTIONS
    ∧ Service.methodOf Sample.lower "patch".toList = Method.GET
    ∧ Service.methodOf Sample.lower "".toList = Method.GET := by
  have h := initRoutes_method_dispatch (fun r => r) none Sample.inGroup 0
    (Sample.route "g" "pUt" "/x" ["B.h"]) (fun _ hc => hc) (by decide)
  obtain ⟨hs, grp, h1, h2, _⟩ := h.1 _ rfl
  exact ⟨⟨hs, grp, h1, h2⟩, h.2.2.1.1 (by decide), by decide, by decide, by decide, by decide,
    by decide, by decide, by decide⟩

/-- C8 fails as written: the route `/bad` passes the filter, so it is an
activated route, yet its pass through the loop body of `initRoutes` makes no
registration, since its handler does not resolve and the pass returns the
error; and the method `OPTİONS`, whose fourth rune U+0130 is not an
ASCII letter, is registered with OPTIONS, not with GET. -/
theorem initRoutes_dispatch_counterexample :
    Service.routeSkipped (Sample.badThenGood.cfg.Flags "require".toList)
        (Sample.route "" "GET" "/bad" ["missing.h"]).Handlers = false
    ∧ (Service.initRoute Sample.lower none Sample.badThenGood 0
        (Sample.route "" "GET" "/bad" ["missing.h"])).2
        = Outcome.err (Error.routeInit 0 (Error.unresolved "missing.h".toList))
    ∧ (Service.initRoute Sample.lower none Sample.badThenGood 0
        (Sample.route "" "GET" "/bad" ["missing.h"])).1.srv.routes = []
    ∧ "OPTİONS".toList.map Char.toNat = [79, 80, 84, 304, 79, 78, 83]
    ∧ Service.methodOf Sample.lower "OPTİONS".toList = Method.OPTIONS := by
  decide

/-! ## Groups -/

theorem Service.initGroupsLoop_no_error (require : Option Str) (gis : List Nat) (s : Service)
    (e : Error) : (Service.initGroupsLoop require gis s).2 ≠ Outcome.err e := by
  induction gis generalizing s with
  | nil => simp [Service.initGroupsLoop]
  | cons gi rest ih =>
    unfold Service.initGroupsLoop
    split
    · simp
    · split
      · exact ih s
      · split
        · simp
        · exact ih _

/-- C6 on the code: the child group is declared before the parent it names.
The lookup of the parent succeeds, the parent has no node yet, and `initGroup`
on the child panics on the nil node instead of creating the parent first; no
node is created and `initGroups` ends in that panic.  With the parent declared
first the child's node is created under the parent's. -/
theorem initGroup_child_before_parent :
    (Sample.childFirst.cfg.GetGroup "parent".toList).toOption = some (some 1)
    ∧ Sample.childFirst.groupNode 1 = none
    ∧ (Sample.childFirst.initGroup 0).2 = Outcome.panic
    ∧ (Sample.childFirst.initGroup 0).1.srv.groups = []
    ∧ Sample.childFirst.initGroups.2 = Outcome.panic
    ∧ Sample.childFirst.initGroups.1.srv.groups = []
    ∧ Sample.parentFirst.initGroups.2 = Outcome.ok
    ∧ Sample.parentFirst.initGroups.1.srv.groups
        = [⟨Scope.srv, "/p".toList, []⟩, ⟨Scope.group 0, "/c".toList, [1]⟩] := by
  decide

/-- C7 on the code: the one group of the configuration passes the filter and
`initGroup` on it returns the unresolved-handler error, yet `initGroups`
returns nil; and `initGroups` returns a non-nil error for no service at all,
since the value `initGroup` returns is dropped. -/
theorem initGroups_drops_error :
    Service.groupSkipped (Sample.brokenGroup.cfg.Flags "require".toList)
        ["missing.h".toList] = false
    ∧ (Sample.brokenGroup.initGroup 0).2 = Outcome.err (Error.unresolved "missing.h".toList)
    ∧ Sample.brokenGroup.initGroups.2 = Outcome.ok
    ∧ ∀ (s : Service) (e : Error), s.initGroups.2 ≠ Outcome.err e := by
  refine ⟨by decide, by decide, by decide, ?_⟩
  intro s e
  unfold Service.initGroups
  split
  · simp
  · exact Service.initGroupsLoop_no_error _ _ s e

/-! ## Closing -/

theorem Service.Close_closed (s : Service) (h : s.closed = true) :
    s.Close = (s, some Error.ErrIsClosed) := by
  cases s with
  | mk cfg srv pl plog closed =>
    simp only at h
    subst h
    rfl

theorem Service.closeTimes_closed (n : Nat) (s : Service) (h : s.closed = true) :
    Service.closeTimes n s = (s, List.replicate n (some Error.ErrIsClosed)) := by
  induction n with
  | zero => rfl
  | succ n ih =>
    unfold Service.closeTimes
    simp only [Service.Close_closed s h, ih, List.replicate_succ]

theorem Service.Close_open (s : Service) (h : s.closed = false) :
    s.Close =
      ({ s with closed := true, Plugins := s.Plugins.Close.1, plog := s.plog.Close.1 },
        Service.ErrorList.Err
          (Service.ErrorList.Push (Service.ErrorList.Push [] s.Plugins.closeErr)
            s.plog.closeErr)) := by
  cases s with
  | mk cfg srv pl plog closed =>
    simp only at h
    subst h
    rfl

/-- C9: on a service that is not closed, a sequence of `n + 1` calls of
`Close` goes as follows.  The first call sets the closed flag, closes the
plugin registry and the panic log, and returns their errors combined; each of
the `n` later calls returns the already-closed error; after the whole
sequence the registry and the panic log have each been closed exactly once
more than before; and after any number of calls, one at least, the flag is
set. -/
theorem Close_teardown_once (s : Service) (n : Nat) (hopen : s.closed = false) :
    s.Close.1.closed = true
    ∧ s.Close.1.Plugins.closeCalls = s.Plugins.closeCalls + 1
    ∧ s.Close.1.plog.closeCalls = s.plog.closeCalls + 1
    ∧ s.Close.2 = Service.ErrorList.Err
        (Service.ErrorList.Push (Service.ErrorList.Push [] s.Plugins.closeErr) s.plog.closeErr)
    ∧ (Service.closeTimes (n + 1) s).2
        = s.Close.2 :: List.replicate n (some Error.ErrIsClosed)
    ∧ (Service.closeTimes (n + 1) s).1.Plugins.closeCalls = s.Plugins.closeCalls + 1
    ∧ (Service.closeTimes (n + 1) s).1.plog.closeCalls = s.plog.closeCalls + 1
    ∧ ∀ k, (Service.closeTimes (k + 1) s).1.closed = true := by
  have hc := Service.Close_open s hopen
  have hclosed : s.Close.1.closed = true := by rw [hc]
  have hrest : ∀ k, Service.closeTimes (k + 1) s
      = (s.Close.1, s.Close.2 :: List.replicate k (some Error.ErrIsClosed)) := by
    intro k
    unfold Service.closeTimes
    simp only [Service.closeTimes_closed k _ hclosed]
  refine ⟨hclosed, ?_, ?_, ?_, ?_, ?_, ?_, ?_⟩
  · rw [hc]; rfl
  · rw [hc]; rfl
  · rw [hc]
  · rw [hrest]
  · rw [hrest, hc]; rfl
  · rw [hrest, hc]; rfl
  · intro k
    rw [hrest]
    exact hclosed

/-- C9 witness: three calls of `Close` on a fresh service. -/
theorem Close_teardown_once_witness :
    (Service.closeTimes 3 (Sample.service 0 0 "" Sample.noFlags [] [])).2
        = [none, some Error.ErrIsClosed, some Error.ErrIsClosed]
    ∧ (Service.closeTimes 3 (Sample.service 0 0 "" Sample.noFlags [] [])).1.Plugins.closeCalls
        = 1
    ∧ (Service.closeTimes 3 (Sample.service 0 0 "" Sample.noFlags [] [])).1.plog.closeCalls = 1
    ∧ (Service.closeTimes 3 (Sample.service 0 0 "" Sample.noFlags [] [])).1.closed = true :=
  have h := Close_teardown_once (Sample.service 0 0 "" Sample.noFlags [] []) 2 rfl
  ⟨h.2.2.2.2.1, h.2.2.2.2.2.1, h.2.2.2.2.2.2.1, h.2.2.2.2.2.2.2 2⟩

/-! ## Listening -/

/-- C10: with a non-zero HTTPS port and an empty TLS directory `listenHTTPS`
sends exactly one value, the invalid-TLS-directory error, and makes no
`ListenTLS` call; with the HTTPS port zero it sends nothing and serves
nothing.  With the HTTP port zero as well as the directory empty and the
HTTPS port non-zero, that error is the only value delivered, whichever
goroutine runs first, and `Listen` returns it. -/
theorem listenHTTPS_invalid_directory (net : Service.Network) (httpFirst : Bool)
    (s : Service) :
    (s.cfg.TLSPort ≠ 0 → s.cfg.TLSDir = [] →
      s.listenHTTPS net = ⟨[some Error.ErrInvalidTLSDirectory], []⟩)
    ∧ (s.cfg.TLSPort = 0 → s.listenHTTPS net = ⟨[], []⟩)
    ∧ (s.cfg.Port = 0 → s.cfg.TLSPort ≠ 0 → s.cfg.TLSDir = [] →
        s.delivered net httpFirst = [some Error.ErrInvalidTLSDirectory]
        ∧ s.Listen net httpFirst = some (some Error.ErrInvalidTLSDirectory)) := by
  have h1 : s.cfg.TLSPort ≠ 0 → s.cfg.TLSDir = [] →
      s.listenHTTPS net = ⟨[some Error.ErrInvalidTLSDirectory], []⟩ := by
    intro hp hd
    simp [Service.listenHTTPS, hp, hd]
  refine ⟨h1, ?_, ?_⟩
  · intro hp
    simp [Service.listenHTTPS, hp]
  · intro h0 hp hd
    have hhttp : s.listenHTTP net = [] := by simp [Service.listenHTTP, h0]
    have hd2 : s.delivered net httpFirst = [some Error.ErrInvalidTLSDirectory] := by
      unfold Service.delivered
      rw [hhttp, h1 hp hd]
      cases httpFirst <;> rfl
    exact ⟨hd2, by unfold Service.Listen; rw [hd2]; rfl⟩

/-- C10 witness: HTTP port 0, HTTPS port 8443, empty TLS directory. -/
theorem listenHTTPS_invalid_directory_witness :
    Sample.tlsWithoutDir.listenHTTPS Sample.servesForever
        = ⟨[some Error.ErrInvalidTLSDirectory], []⟩
    ∧ Sample.tlsWithoutDir.Listen Sample.servesForever true
        = some (some Error.ErrInvalidTLSDirectory)
    ∧ Sample.tlsWithoutDir.Listen Sample.servesForever false
        = some (some Error.ErrInvalidTLSDirectory) :=
  ⟨(listenHTTPS_invalid_directory Sample.servesForever true Sample.tlsWithoutDir).1
      (by decide) rfl,
    ((listenHTTPS_invalid_directory Sample.servesForever true Sample.tlsWithoutDir).2.2
      rfl (by decide) rfl).2,
    ((listenHTTPS_invalid_directory Sample.servesForever false Sample.tlsWithoutDir).2.2
      rfl (by decide) rfl).2⟩

end Vroomy
